import Mathlib

/-!
Verification development for the Adapt core engine.

Shallow embedding of:
  - the style-engine match registry and selector matcher (src/unnamed/part_005),
  - the observer registry observe function (src/core/src/observers/registry.ts),
  - the deployment status tracker (src/core/src/deploy/status_tracker.ts),
  - the history commit closure (src/core/src/ops/buildAndDeploy.ts).

JavaScript Maps keyed by object identity are embedded as association lists
keyed by numeric identity tokens; JS Sets are embedded as duplicate-free
insertion-ordered lists.  Enumerations and helper predicates that live in
repository files not present under src (deploy_types.ts, server/history.ts,
the build engine dom.ts and the external TaskObserver) are modelled from the
spec and marked as such in their doc comments.
-/

namespace Adapt

/-! ### Style engine: per-instance rule-match registry (src/unnamed/part_005) -/

/-- Identity token of a mounted element instance (JS object identity). -/
abbrev ElemId := Nat

/-- Identity token of a StyleRule object (rules are compared by reference). -/
abbrev RuleId := Nat

/-- MatchInfo from part_005: the set of rules already matched against one
element instance, plus the administrative neverMatch flag.  The source fields
are optional (absent until first touched); matched is a JS Set embedded as a
duplicate-free list in insertion order. -/
structure MatchInfo where
  matched : Option (List RuleId) := none
  neverMatch : Bool := false
deriving Repr, DecidableEq

/-- MatchInfoReg is a Map from element instance to MatchInfo; embedded as an
association list where lookup returns the first binding. -/
abbrev MatchInfoReg := List (ElemId × MatchInfo)

/-- createMatchInfoReg from part_005: the empty registry. -/
def createMatchInfoReg : MatchInfoReg := []

/-- getCssMatched from part_005.  The source inserts an empty record into the
map when the element is missing and returns it; inserting the default record
is invisible to every read, so the embedding is a pure lookup with default. -/
def getCssMatched (reg : MatchInfoReg) (el : ElemId) : MatchInfo :=
  (reg.lookup el).getD {}

/-- Map.set on the registry: a new first binding shadows any older one. -/
def setMatchInfo (reg : MatchInfoReg) (el : ElemId) (mi : MatchInfo) : MatchInfoReg :=
  (el, mi) :: reg

/-- Set.add on the matched set: append the rule unless already present. -/
def addRuleToSet (l : List RuleId) (r : RuleId) : List RuleId :=
  if l.contains r then l else l ++ [r]

/-- ruleHasMatched from part_005: true when the matched set exists and holds r. -/
def ruleHasMatched (reg : MatchInfoReg) (el : ElemId) (r : RuleId) : Bool :=
  match (getCssMatched reg el).matched with
  | none => false
  | some l => l.contains r

/-- ruleMatches from part_005: record that rule r has matched element el,
creating the matched set on first use. -/
def ruleMatches (reg : MatchInfoReg) (el : ElemId) (r : RuleId) : MatchInfoReg :=
  let m := getCssMatched reg el
  setMatchInfo reg el { m with matched := some (addRuleToSet (m.matched.getD []) r) }

/-- neverMatch from part_005: set the administrative cut-off flag. -/
def neverMatch (reg : MatchInfoReg) (el : ElemId) : MatchInfoReg :=
  let m := getCssMatched reg el
  setMatchInfo reg el { m with neverMatch := true }

/-- canMatch from part_005: an element can match unless flagged neverMatch. -/
def canMatch (reg : MatchInfoReg) (el : ElemId) : Bool :=
  (getCssMatched reg el).neverMatch != true

/-- copyRuleMatches from part_005.  Note the else-if in the source: when the
source element carries neverMatch, only that flag is copied and the matched
set of the target is left untouched. -/
def copyRuleMatches (reg : MatchInfoReg) (fromEl toEl : ElemId) : MatchInfoReg :=
  let f := getCssMatched reg fromEl
  let t := getCssMatched reg toEl
  if f.neverMatch then
    setMatchInfo reg toEl { t with neverMatch := true }
  else
    match f.matched with
    | some l =>
        setMatchInfo reg toEl { t with matched := some (l.foldl addRuleToSet (t.matched.getD [])) }
    | none => reg

/-- StyleBuildInfo as seen by ruleNoRematch: the original element the rule
matched and the hidden match registry carried on the info object.  In the
source the registry symbol can be absent, in which case ruleNoRematch throws;
the embedding always carries it, so only the mounted-element error remains. -/
structure StyleBuildInfoM where
  origElement : ElemId
  matchInfoReg : MatchInfoReg

/-- A freshly produced replacement element as ruleNoRematch sees it: its
identity and whether it has already been mounted. -/
structure NewElem where
  id : ElemId
  mounted : Bool
deriving Repr, DecidableEq

/-- ruleNoRematch from part_005: throws when the element is already mounted,
otherwise copies the rule matches of the original element onto it.  The
embedding returns the updated registry (the source mutates it in place and
returns elem). -/
def ruleNoRematch (info : StyleBuildInfoM) (elem : NewElem) : Except String MatchInfoReg :=
  if elem.mounted then
    .error "elem has already been mounted. elem must be a newly created element"
  else
    .ok (copyRuleMatches info.matchInfoReg info.origElement elem.id)

/-- Modelled from the spec: the build engine (dom.ts, not under src) applies a
style rule to an element instance only when the match registry allows it, that
is when the instance is not flagged neverMatch and the rule has not already
been recorded as matched against this exact instance (spec section 3 Match
Registry and section 4.1). -/
def ruleShouldApply (reg : MatchInfoReg) (el : ElemId) (r : RuleId) : Bool :=
  canMatch reg el && !ruleHasMatched reg el r

/-- One registry operation performed during a single build pass. -/
inductive RegOp where
  | mark (el : ElemId) (r : RuleId)
  | never (el : ElemId)
  | copy (fromEl toEl : ElemId)
deriving Repr, DecidableEq

/-- Apply one registry operation. -/
def applyRegOp (reg : MatchInfoReg) : RegOp → MatchInfoReg
  | .mark el r => ruleMatches reg el r
  | .never el => neverMatch reg el
  | .copy f t => copyRuleMatches reg f t

/-- Apply a sequence of registry operations, oldest first. -/
def applyRegOps (reg : MatchInfoReg) : List RegOp → MatchInfoReg
  | [] => reg
  | op :: ops => applyRegOps (applyRegOp reg op) ops

/-! ### Style engine: selector matching (src/unnamed/part_005)

A parsed selector (css-what output) is a disjunction of blocks, each block a
list of fragments.  The source stores fragments left-to-right and repeatedly
splits off the LAST fragment; the embedding stores each block with the
fragments in right-to-left order (deepest-first), so the splitting is
structural recursion on the head.  matchWithBlock below therefore corresponds
to the source function applied to the reversed list. -/

/-- Attribute comparison actions supported by matchAttribute in part_005.
Other css-what actions hit the default case and throw, and are therefore not
representable here. -/
inductive AttrAction where
  | exists_
  | equals
  | start
  | any
  | end_
  | element
deriving Repr, DecidableEq

/-- A prop value: matchAttribute only operates on string-valued props, every
other value behaves as absent. -/
inductive PropVal where
  | str (s : String)
  | other
deriving Repr, DecidableEq

/-- Selector fragment (css-what Selector), restricted to the kinds the source
supports; unsupported kinds make the source throw before matching starts.
The tag name is the uniqueName identity token of a componentType object:
uniqueName assigns one fresh string per object, so string equality of names
coincides with identity of componentType objects, embedded as Nat tokens.
pseudoNot carries the nested parsed selector, in the same reversed-block
representation. -/
inductive SelFrag where
  | tag (name : Nat)
  | attribute (action : AttrAction) (name : String) (value : String) (ignoreCase : Bool)
  | pseudoRoot
  | pseudoNot (data : List (List SelFrag))
  | child
  | descendant

/-- An element as the selector matcher sees it: componentType identity token
and props. -/
structure MatchElem where
  componentType : Nat
  props : List (String × PropVal)
deriving Repr, DecidableEq

/-- A root-to-current path of elements (DomPath). -/
abbrev DomPath := List MatchElem

/-- Result of matching one fragment: possibly shortened path plus verdict. -/
structure Matched where
  newPath : DomPath
  matched : Bool

/-- getPropValue from part_005.  Exact lookup reads the (unique) object key;
with ignoreCase the source loops over all keys and the last case-insensitive
hit wins.  Only string values are returned. -/
def getPropValue (elem : MatchElem) (prop : String) (ignoreCase : Bool) : Option String :=
  let val : Option PropVal :=
    if ignoreCase then
      let p := prop.toLower
      elem.props.foldl (fun acc kv => if kv.1.toLower == p then some kv.2 else acc) none
    else
      elem.props.lookup prop
  match val with
  | some (.str s) => some s
  | _ => none

/-- JS String.prototype.split with a whitespace-run regexp: maximal runs of
whitespace separate the tokens, a leading run contributes a leading empty
token and a trailing run a trailing empty token; splitting the empty string
yields one empty token. -/
def jsSplitWs (s : String) : List String :=
  let step := fun (acc : List String × String × Bool) (c : Char) =>
    let (done, cur, inWs) := acc
    if c.isWhitespace then
      if inWs then (done, cur, true) else (done ++ [cur], "", true)
    else
      (done, cur.push c, false)
  let (done, cur, _) := s.data.foldl step ([], "", false)
  done ++ [cur]

/-- matchRoot from part_005: the path always starts at the actual root, so the
element is the root exactly when the path has length one. -/
def matchRoot (path : DomPath) : Matched :=
  { newPath := path, matched := path.length == 1 }

/-- matchTag from part_005: componentType identity against the tag name. -/
def matchTag (name : Nat) (path : DomPath) : Matched :=
  match path.getLast? with
  | none => { newPath := path, matched := false }
  | some elem => { newPath := path, matched := elem.componentType == name }

/-- JS String.prototype.includes on the underlying character lists. -/
def charsContains (hay needle : List Char) : Bool :=
  needle.isPrefixOf hay ||
    match hay with
    | [] => false
    | _ :: t => charsContains t needle

/-- matchAttribute from part_005 for the supported actions.  The source
throws on a null last element (InternalError); matchWithBlock never reaches
this with an empty path because it stops when the path becomes empty. -/
def matchAttribute (action : AttrAction) (name value : String) (ignoreCase : Bool)
    (path : DomPath) : Matched :=
  match path.getLast? with
  | none => { newPath := path, matched := false }
  | some elem =>
    match getPropValue elem name ignoreCase with
    | none => { newPath := path, matched := false }
    | some v =>
      let m : Bool :=
        match action with
        | .exists_ => true
        | .equals => v == value
        | .start => v.startsWith value
        | .any => charsContains v.data value.data
        | .end_ => v.endsWith value
        | .element => (jsSplitWs v).contains value
      { newPath := path, matched := m }

/-- matchChild from part_005: consume the deepest element; an empty path
cannot match. -/
def matchChild (path : DomPath) : Matched :=
  if path.length < 1 then { newPath := path, matched := false }
  else { newPath := path.dropLast, matched := true }

/-- The try paths of the matchDescendant loop in part_005: path.slice(0,-i)
for i from 1 while i is less than path.length, that is every nonempty strict
initial segment of the path, nearest ancestor (longest) first. -/
def strictInitSegs (path : DomPath) : List DomPath :=
  if h : path.dropLast.isEmpty then []
  else path.dropLast :: strictInitSegs path.dropLast
termination_by path.length
decreasing_by
  have hnil : path ≠ [] := by
    intro hp
    rw [hp] at h
    simp at h
  have hpos : 0 < path.length := List.length_pos.mpr hnil
  simp only [List.length_dropLast]
  omega

mutual

/-- matchWithSelector from part_005: a selector list matches when some block
matches. -/
def matchWithSelector : List (List SelFrag) → DomPath → Bool
  | [], _ => false
  | b :: rest, path => matchWithBlock b path || matchWithSelector rest path
termination_by sel path => (sizeOf sel, sizeOf path, 0)

/-- matchWithBlock from part_005 on the reversed fragment list: the empty
selector matches everything; a trailing descendant combinator hands off to
the descendant loop; otherwise the last fragment is matched, a false verdict
or an exhausted path rejects, and matching recurses into the selector
remainder over the (possibly shortened) path. -/
def matchWithBlock : List SelFrag → DomPath → Bool
  | [], _ => true
  | .descendant :: pre, path => matchDescendantList pre (strictInitSegs path)
  | f :: pre, path =>
    let m := matchFrag f path
    if !m.matched then false
    else if m.newPath.isEmpty then false
    else matchWithBlock pre m.newPath
termination_by block path => (sizeOf block, sizeOf path, 0)

/-- matchDescendant from part_005, with the loop over try paths made explicit:
try the strict ancestor paths from nearest to furthest, first match wins.  The
source calls matchWithSelector on the one-block list holding the remainder,
which is definitionally matchWithBlock of the remainder; it also throws
InternalError on an empty remainder, which validated selectors never produce,
so the embedding simply recurses. -/
def matchDescendantList (pre : List SelFrag) : List DomPath → Bool
  | [] => false
  | t :: rest => matchWithBlock pre t || matchDescendantList pre rest
termination_by cands => (sizeOf pre, sizeOf cands, 1)

/-- matchFrag from part_005: dispatch on the fragment type (matchConfig).
The descendant entry of matchConfig throws InternalError and is unreachable
because matchWithBlock intercepts descendant fragments first. -/
def matchFrag (f : SelFrag) (path : DomPath) : Matched :=
  match f with
  | .tag name => matchTag name path
  | .attribute action name value ignoreCase => matchAttribute action name value ignoreCase path
  | .child => matchChild path
  | .descendant => { newPath := path, matched := false }
  | .pseudoRoot => matchPseudo .pseudoRoot path
  | .pseudoNot data => matchPseudo (.pseudoNot data) path
termination_by (sizeOf f, sizeOf path, 3)

/-- matchPseudo from part_005: dispatch on the pseudo-class name
(matchPseudoConfig); only root and not are supported, every other pseudo
makes the source throw. -/
def matchPseudo (f : SelFrag) (path : DomPath) : Matched :=
  match f with
  | .pseudoRoot => matchRoot path
  | .pseudoNot data => matchNot data path
  | _ => { newPath := path, matched := false }
termination_by (sizeOf f, sizeOf path, 2)

/-- matchNot from part_005: negate the nested selector over the same path.
The source throws when the argument list is empty (malformed CSS); for the
embedding an empty disjunction simply never matches, so the negation matches. -/
def matchNot (data : List (List SelFrag)) (path : DomPath) : Matched :=
  { newPath := path, matched := !matchWithSelector data path }
termination_by (sizeOf data, sizeOf path, 1)

end

/-! ### Observer registry: observe (src/core/src/observers/registry.ts) -/

/-- Opaque payload of one executed query. -/
abbrev Query := Nat

/-- Opaque observation data returned by an observer plugin. -/
abbrev ObsData := Nat

/-- One entry of the returned Observations record: the data an observer
produced together with the queries it was given. -/
structure ObsEntry where
  observations : ObsData
  queries : List Query
deriving Repr, DecidableEq

/-- The observe hook of an observer plugin: observations or a thrown error,
embedded by its message. -/
abbrev ObserverFn := List Query → Except String ObsData

/-- Outcome of the observe function: the returned observations or the thrown
aggregate error (message plus the partial observations attached to it), and
the warnings written to the logger. -/
structure ObserveOutcome where
  result : Except (String × List (String × ObsEntry)) (List (String × ObsEntry))
  warnings : List String
deriving Repr

/-- Accumulator step of the observe loop in registry.ts: one observer name is
looked up (unregistered names are skipped), its queries are fetched with
default empty list, and its observe hook either contributes an observations
entry or contributes a warning and a collected error message.  The source
starts all observers as concurrent promises and awaits them all; completion
order only affects the order of entries and error messages, embedded here as
program order. -/
def observeStep (observers : List (String × ObserverFn))
    (executedQueries : List (String × List Query))
    (acc : List (String × ObsEntry) × List String × List String) (name : String) :
    List (String × ObsEntry) × List String × List String :=
  let (ret, warns, errs) := acc
  match observers.lookup name with
  | none => acc
  | some obs =>
    let queries := (executedQueries.lookup name).getD []
    match obs queries with
    | .ok o => (ret ++ [(name, { observations := o, queries := queries })], warns, errs)
    | .error e =>
      let msg := "Error observing for " ++ name ++ ": " ++ e
      (ret, warns ++ [msg], errs ++ [msg])

/-- observe from registry.ts: run every named observer, never failing fast;
if any collected errors exist, throw one aggregate error whose message joins
the individual messages and which carries the partial results, else return
the observations of all observers. -/
def observe (observers : List (String × ObserverFn))
    (executedQueries : List (String × List Query))
    (observerNames : List String) : ObserveOutcome :=
  let (ret, warns, errs) := observerNames.foldl (observeStep observers executedQueries) ([], [], [])
  if errs.isEmpty then { result := .ok ret, warnings := warns }
  else
    { result := .error ("Errors during observations:\n" ++ String.intercalate "\n" errs, ret),
      warnings := warns }

/-- Specification-side description of the successful observers: written from
the words of the claim (the observations of all observers that succeeded), to
be compared against the observe function. -/
def observeSuccessSpec (observers : List (String × ObserverFn))
    (executedQueries : List (String × List Query))
    (observerNames : List String) : List (String × ObsEntry) :=
  observerNames.filterMap fun name =>
    match observers.lookup name with
    | none => none
    | some obs =>
      let queries := (executedQueries.lookup name).getD []
      match obs queries with
      | .ok o => some (name, { observations := o, queries := queries })
      | .error _ => none

/-- Specification-side description of the failing observers: one message per
failing observer, written from the words of the claim. -/
def observeFailureSpec (observers : List (String × ObserverFn))
    (executedQueries : List (String × List Query))
    (observerNames : List String) : List String :=
  observerNames.filterMap fun name =>
    match observers.lookup name with
    | none => none
    | some obs =>
      match obs ((executedQueries.lookup name).getD []) with
      | .ok _ => none
      | .error e => some ("Error observing for " ++ name ++ ": " ++ e)

/-! ### Deploy status types

The enumerations and tiny helpers below live in deploy/deploy_types.ts, which
is not under src (only its importer status_tracker.ts is), so they are
modelled from the spec, section 3 Deploy Status:
Initial and Waiting are pre-action, Deploying and Destroying (with proxying
sub-states) are in-progress, Deployed and Destroyed are goal-terminal and
Failed is terminal. -/

/-- Modelled from the spec: DeployStatus, the persisted per-node status. -/
inductive DeployStatus where
  | Initial
  | Waiting
  | Deploying
  | Destroying
  | Deployed
  | Destroyed
  | Failed
deriving Repr, DecidableEq, Fintype

/-- Modelled from the spec: DeployStatusExt adds the internal proxying
sub-states to DeployStatus. -/
inductive DeployStatusExt where
  | Initial
  | Waiting
  | Deploying
  | Destroying
  | Deployed
  | Destroyed
  | Failed
  | ProxyDeploying
  | ProxyDestroying
deriving Repr, DecidableEq, Fintype

/-- Modelled from the spec: toDeployStatus projects the proxying sub-states
onto their in-progress deploy status. -/
def toDeployStatus : DeployStatusExt → DeployStatus
  | .Initial => .Initial
  | .Waiting => .Waiting
  | .Deploying => .Deploying
  | .Destroying => .Destroying
  | .Deployed => .Deployed
  | .Destroyed => .Destroyed
  | .Failed => .Failed
  | .ProxyDeploying => .Deploying
  | .ProxyDestroying => .Destroying

/-- Modelled from the spec: the terminal statuses are Deployed, Destroyed and
Failed; a node in one of them ignores further transition requests. -/
def isFinalStatus : DeployStatusExt → Bool
  | .Deployed => true
  | .Destroyed => true
  | .Failed => true
  | _ => false

/-- Modelled from the spec: the goal-terminal statuses. -/
def isGoalStatus : DeployStatus → Bool
  | .Deployed => true
  | .Destroyed => true
  | _ => false

/-- Modelled from the spec: the in-progress statuses. -/
def isInProgress : DeployStatus → Bool
  | .Deploying => true
  | .Destroying => true
  | _ => false

/-- Modelled from the spec: the proxying sub-states. -/
def isProxying : DeployStatusExt → Bool
  | .ProxyDeploying => true
  | .ProxyDestroying => true
  | _ => false

/-- Modelled from the spec: GoalStatus, the terminal status a node must reach
(Deployed or Destroyed depending on deployment direction). -/
inductive GoalStatus where
  | Deployed
  | Destroyed
deriving Repr, DecidableEq, Fintype

/-- The DeployStatus a GoalStatus denotes. -/
def goalToDeployStatus : GoalStatus → DeployStatus
  | .Deployed => .Deployed
  | .Destroyed => .Destroyed

/-- Modelled from the spec: goalToInProgress, the in-progress variant of a
goal status. -/
def goalToInProgress : GoalStatus → DeployStatus
  | .Deployed => .Deploying
  | .Destroyed => .Destroying

/-- Modelled from the spec: DeployOpStatus, a deploy status or the
StateChanged marker reported when acting changed component state. -/
inductive DeployOpStatus where
  | status (d : DeployStatus)
  | StateChanged
deriving Repr, DecidableEq

/-- Modelled from the spec: TaskObserver state from the external utils
package; a task is created, may be started, and finishes exactly once as
complete, failed or skipped. -/
inductive TaskState where
  | Created
  | Started
  | Complete
  | Failed
  | Skipped
deriving Repr, DecidableEq

/-- The slice of the TaskObserver handle the tracker drives: its lifecycle
state and its description. -/
structure TaskObs where
  state : TaskState := .Created
  description : Option String := none
deriving Repr, DecidableEq

/-! ### Status tracker (src/core/src/deploy/status_tracker.ts) -/

/-- The element carried by a deploy node, as the tracker reads it: its stable
id, whether it is a final DOM element (isFinalDomElement, a predicate of the
jsx module not under src, modelled as an attribute), whether it was built and
its deployedWhenIsTrivial declaration. -/
structure NodeElem where
  eid : Nat
  isFinalDom : Bool
  built : Bool
  deployedWhenIsTrivial : Bool
deriving Repr, DecidableEq

/-- EPNode as the tracker reads it: identity, optional element and the
activeAction flag of its wait info. -/
structure EPNode where
  nid : Nat
  element : Option NodeElem
  activeAction : Bool
deriving Repr, DecidableEq

/-- shouldTrackStatus from status_tracker.ts. -/
def shouldTrackStatus (n : EPNode) : Bool :=
  n.element.isSome

/-- isTrivial from status_tracker.ts. -/
def isTrivial (n : EPNode) : Bool :=
  if n.activeAction then false
  else
    match n.element with
    | some e => if e.built then e.deployedWhenIsTrivial else true
    | none => true

/-- One persistence side effect issued to the deployment server. -/
inductive Persist where
  | statusPatch (stepID : Nat) (deployStatus : DeployOpStatus) (goal : Option GoalStatus)
      (elementStatus : List (Nat × DeployStatus))
  | elementStatus (stepID : Nat) (eid : Nat) (deployStatus : DeployStatus) (errMsg : Option String)
deriving Repr, DecidableEq

/-- StatusTrackerImpl state.  The Maps keyed by node objects are association
lists keyed by the node value; the counter records are functions on
DeployStatus with integer values, as in the source. -/
structure StatusTrackerImpl where
  dryRun : Bool
  goalStatus : GoalStatus
  deployOpID : Nat
  nodeStatus : DeployStatus → Int
  primStatus : DeployStatus → Int
  nonPrimStatus : DeployStatus → Int
  statMap : List (EPNode × DeployStatusExt)
  taskMap : List (EPNode × TaskObs)
  stepID : Option Nat
  writes : List Persist

/-- Options of the StatusTrackerImpl constructor. -/
structure StatusTrackerOptions where
  dryRun : Bool
  goalStatus : GoalStatus
  nodes : List EPNode
  deployOpID : Nat
deriving Repr, DecidableEq

/-- newStatus from status_tracker.ts: every bucket zero. -/
def newStatus : DeployStatus → Int := fun _ => 0

/-- Update one counter record exactly as updateCount does: decrement the old
bucket and increment the new one. -/
def bumpCounter (c : DeployStatus → Int) (oldStat newStat : DeployStatus) :
    DeployStatus → Int :=
  fun d =>
    c d - (if d = oldStat then 1 else 0) + (if d = newStat then 1 else 0)

/-- The StatusTrackerImpl constructor: every node starts Waiting, the Waiting
buckets are preloaded (all nodes; element-bearing nodes split by final DOM
element into primStatus and nonPrimStatus) and a task observer is created for
every element-bearing node. -/
def mkTracker (opts : StatusTrackerOptions) : StatusTrackerImpl :=
  let primWaiting : Int :=
    ((opts.nodes.filter fun n =>
      match n.element with
      | some e => e.isFinalDom
      | none => false).length : Int)
  let nonPrimWaiting : Int :=
    ((opts.nodes.filter fun n =>
      match n.element with
      | some e => !e.isFinalDom
      | none => false).length : Int)
  { dryRun := opts.dryRun
    goalStatus := opts.goalStatus
    deployOpID := opts.deployOpID
    nodeStatus := fun d => if d = .Waiting then (opts.nodes.length : Int) else 0
    primStatus := fun d => if d = .Waiting then primWaiting else 0
    nonPrimStatus := fun d => if d = .Waiting then nonPrimWaiting else 0
    statMap := opts.nodes.map fun n => (n, DeployStatusExt.Waiting)
    taskMap := opts.nodes.filterMap fun n =>
      if shouldTrackStatus n then some (n, {}) else none
    stepID := none
    writes := [] }

/-- initDeploymentStatus from status_tracker.ts: in dry-run mode it returns
immediately; otherwise it allocates a step id from the deployment (passed in
here, the deployment server being external) and persists the initial status
patch with the in-progress deploy status, the goal and every element status. -/
def initDeploymentStatus (t : StatusTrackerImpl) (freshStepID : Nat) : StatusTrackerImpl :=
  if t.dryRun then t
  else
    let elementStatus : List (Nat × DeployStatus) :=
      t.statMap.filterMap fun p =>
        match p.1.element with
        | some e => some (e.eid, toDeployStatus p.2)
        | none => none
    { t with
      stepID := some freshStepID
      writes := t.writes ++
        [Persist.statusPatch freshStepID (.status (goalToInProgress t.goalStatus))
          (some t.goalStatus) elementStatus] }

/-- createStatusTracker from status_tracker.ts: construct then initialize. -/
def createStatusTracker (opts : StatusTrackerOptions) (freshStepID : Nat) : StatusTrackerImpl :=
  initDeploymentStatus (mkTracker opts) freshStepID

/-- Update an association list value in place, as Map.set does on a present
key; keys are node values and every binding of the key is rewritten. -/
def updAssoc {α : Type} (m : List (EPNode × α)) (k : EPNode) (v : α) : List (EPNode × α) :=
  m.map fun p => if p.1 = k then (k, v) else p

/-- get from status_tracker.ts; the source throws InternalError on a node
missing from the map, embedded as none. -/
def trackerGet (t : StatusTrackerImpl) (n : EPNode) : Option DeployStatusExt :=
  t.statMap.lookup n

/-- updateCount from status_tracker.ts: bump the total counters and, for an
element-bearing node, the primitive or non-primitive counters. -/
def updateCount (t : StatusTrackerImpl) (n : EPNode) (oldStat newStat : DeployStatus) :
    StatusTrackerImpl :=
  let t1 := { t with nodeStatus := bumpCounter t.nodeStatus oldStat newStat }
  match n.element with
  | none => t1
  | some e =>
    if e.isFinalDom then { t1 with primStatus := bumpCounter t1.primStatus oldStat newStat }
    else { t1 with nonPrimStatus := bumpCounter t1.nonPrimStatus oldStat newStat }

/-- getTask from status_tracker.ts: no task for untracked nodes; for tracked
nodes the source throws InternalError when the task is missing, embedded as
none, which makes updateTask a no-op. -/
def getTask (t : StatusTrackerImpl) (n : EPNode) : Option TaskObs :=
  if shouldTrackStatus n then t.taskMap.lookup n else none

/-- updateTask from status_tracker.ts: set the description when given; a
passed error fails the task; in dry-run mode a goal status skips a created or
started task; otherwise entering in-progress (not from proxying) starts a
created task and reaching a goal status completes a started task. -/
def updateTask (t : StatusTrackerImpl) (n : EPNode) (oldStat : DeployStatusExt)
    (newStat : DeployStatus) (errMsg : Option String) (description : Option String) :
    StatusTrackerImpl :=
  match getTask t n with
  | none => t
  | some task0 =>
    let task1 :=
      match description with
      | some d => { task0 with description := some d }
      | none => task0
    let task2 :=
      if errMsg.isSome then { task1 with state := .Failed }
      else if t.dryRun then
        if isGoalStatus newStat &&
            (task1.state == .Created || task1.state == .Started) then
          { task1 with state := .Skipped }
        else task1
      else
        if isInProgress newStat && !isProxying oldStat then
          if task1.state == .Created then { task1 with state := .Started } else task1
        else if isGoalStatus newStat then
          if task1.state == .Started then { task1 with state := .Complete } else task1
        else task1
    { t with taskMap := updAssoc t.taskMap n task2 }

/-- writeStatus from status_tracker.ts: persists the element status patch of
the (just updated) node unless the node has no element or no step id exists
(dry run). -/
def writeStatus (t : StatusTrackerImpl) (n : EPNode) (errMsg : Option String)
    (statExt : DeployStatusExt) : StatusTrackerImpl :=
  match n.element, t.stepID with
  | some e, some sid =>
    { t with writes := t.writes ++ [Persist.elementStatus sid e.eid (toDeployStatus statExt) errMsg] }
  | _, _ => t

/-- set from status_tracker.ts: false without any change when the node is
already at the requested extended status or in a final status; otherwise the
status map, the counters, the task observer and the persisted element status
are updated and true is returned.  none embeds the InternalError thrown on an
unrecognized node. -/
def trackerSet (t : StatusTrackerImpl) (n : EPNode) (statExt : DeployStatusExt)
    (errMsg : Option String) (description : Option String) :
    Option (Bool × StatusTrackerImpl) :=
  match trackerGet t n with
  | none => none
  | some oldStat =>
    if statExt = oldStat ∨ isFinalStatus oldStat = true then some (false, t)
    else
      let deployStatus := toDeployStatus statExt
      let t1 := { t with statMap := updAssoc t.statMap n statExt }
      let t2 := updateCount t1 n (toDeployStatus oldStat) deployStatus
      let t3 := updateTask t2 n oldStat deployStatus errMsg description
      let t4 := writeStatus t3 n errMsg statExt
      some (true, t4)

/-- Errors of the tracker and the commit closure: both only ever throw
InternalError, the engine-bug error kind. -/
inductive AdaptError where
  | internalError (msg : String)
deriving Repr, DecidableEq

/-- complete from status_tracker.ts: throws InternalError when the Initial
bucket is nonempty; otherwise Failed wins, then the goal status when every
node counts as Deployed or Destroyed, then StateChanged when acting changed
state, then the in-progress variant of the goal; the final status is
persisted when a step id exists. -/
def trackerComplete (t : StatusTrackerImpl) (stateChanged : Bool) :
    Except AdaptError (DeployOpStatus × StatusTrackerImpl) :=
  if t.nodeStatus .Initial > 0 then
    .error (.internalError "Nodes should not be in Initial state")
  else
    let atGoal := t.nodeStatus .Deployed + t.nodeStatus .Destroyed
    let deploymentStatus : DeployOpStatus :=
      if t.nodeStatus .Failed > 0 then .status .Failed
      else if atGoal = (t.statMap.length : Int) then .status (goalToDeployStatus t.goalStatus)
      else if stateChanged then .StateChanged
      else .status (goalToInProgress t.goalStatus)
    let t2 :=
      match t.stepID with
      | some sid =>
        { t with writes := t.writes ++ [Persist.statusPatch sid deploymentStatus none []] }
      | none => t
    .ok (deploymentStatus, t2)

/-- The deploymentStatus expression computed inside complete, as a named
function for stating its specification. -/
def completeStatus (t : StatusTrackerImpl) (stateChanged : Bool) : DeployOpStatus :=
  if t.nodeStatus .Failed > 0 then .status .Failed
  else if t.nodeStatus .Deployed + t.nodeStatus .Destroyed = (t.statMap.length : Int) then
    .status (goalToDeployStatus t.goalStatus)
  else if stateChanged then .StateChanged
  else .status (goalToInProgress t.goalStatus)

/-- One call to set, for describing arbitrary call sequences. -/
structure SetCall where
  n : EPNode
  statExt : DeployStatusExt
  errMsg : Option String
  description : Option String
deriving Repr, DecidableEq

/-- Apply a sequence of set calls; a call on an unrecognized node throws in
the source and is skipped here, and a false return leaves the state as set
itself left it. -/
def applySets (t : StatusTrackerImpl) : List SetCall → StatusTrackerImpl
  | [] => t
  | c :: cs =>
    match trackerSet t c.n c.statExt c.errMsg c.description with
    | none => applySets t cs
    | some (_, t2) => applySets t2 cs

/-! ### History commit (src/core/src/ops/buildAndDeploy.ts currentState) -/

/-- Modelled from the spec: HistoryStatus, the phase marker of a history
entry (server/history.ts is not under src).  The spec lists the phase markers
preAct, failed, success and stateChanged; buildAndDeploy commits preAct,
failed and success. -/
inductive HistoryStatus where
  | preAct
  | failed
  | success
  | stateChanged
deriving Repr, DecidableEq

/-- Modelled from the spec: isStatusComplete (server/history.ts, not under
src).  The terminal (complete) phases of a deployment attempt are success and
failed; preAct marks an entry committed before acting. -/
def isStatusComplete : HistoryStatus → Bool
  | .success => true
  | .failed => true
  | _ => false

/-- CommitData: the payload handed to the commit closure. -/
structure CommitData where
  status : HistoryStatus
  dataDir : String
  dependenciesJson : String
  domXml : String
  observationsJson : String
deriving Repr, DecidableEq

/-- A committed history entry: the payload plus the fields the closure adds
from its environment. -/
structure HistoryEntry where
  data : CommitData
  fileName : String
  projectRoot : String
  stackName : String
  stateJson : String
deriving Repr, DecidableEq

/-- State captured by the commit closure created in currentState: the
lastCommit variable, whether this run is a dry run, the fields added on
commit, and the entries written through deployment.commitEntry. -/
structure CommitState where
  dryRun : Bool
  lastCommit : Option HistoryStatus := none
  fileName : String
  projectRoot : String
  stackName : String
  stateJson : String
  committed : List HistoryEntry := []
deriving Repr, DecidableEq

/-- The commit closure from currentState in buildAndDeploy.ts: a repeated
preAct commit right after a preAct commit returns without doing anything; a
commit after a terminal (complete) status throws InternalError; otherwise
lastCommit is recorded and, unless running dry, the entry is persisted. -/
def commitEntry (cs : CommitState) (entry : CommitData) : Except AdaptError CommitState :=
  if cs.lastCommit = some .preAct ∧ entry.status = .preAct then .ok cs
  else
    match cs.lastCommit with
    | some lc =>
      if isStatusComplete lc then
        .error (.internalError "Attempt to commit a repeated final HistoryStatus")
      else commitWrite cs entry
    | none => commitWrite cs entry
where
  /-- The fallthrough of the closure: record lastCommit and write unless dry. -/
  commitWrite (cs : CommitState) (entry : CommitData) : Except AdaptError CommitState :=
    .ok { cs with
      lastCommit := some entry.status
      committed :=
        if cs.dryRun then cs.committed
        else cs.committed ++
          [{ data := entry
             fileName := cs.fileName
             projectRoot := cs.projectRoot
             stackName := cs.stackName
             stateJson := cs.stateJson }] }

/-! ### Dry-run action execution (modelled) -/

/-- An action as the act phase sees it: the node it drives, the goal-shaped
extended status reaching which means the action is done, and the identity of
its executor function. -/
structure ModelAction where
  node : EPNode
  doneStatus : DeployStatusExt
  executorId : Nat
deriving Repr, DecidableEq

/-- Modelled from the spec: the act phase of the plugin manager (not under
src).  In dry-run mode eligible actions are marked skipped in the status
tracker without being executed (spec section 4.3 act); otherwise each
executor runs and the node is driven to the done status.  Returns the list of
invoked executor identities together with the final tracker state. -/
def actModel (dryRun : Bool) (actions : List ModelAction) (t : StatusTrackerImpl) :
    List Nat × StatusTrackerImpl :=
  match actions with
  | [] => ([], t)
  | a :: rest =>
    let t2 :=
      match trackerSet t a.node a.doneStatus none none with
      | none => t
      | some (_, t2) => t2
    let res := actModel dryRun rest t2
    if dryRun then res else (a.executorId :: res.1, res.2)

/-! ### Analysis definitions for the tracker theorems -/

/-- Number of statMap entries whose projected deploy status is d. -/
def countStat (m : List (EPNode × DeployStatusExt)) (d : DeployStatus) : Nat :=
  (m.filter fun p => toDeployStatus p.2 == d).length

/-- All deploy statuses, for summing the counter records. -/
def statusList : List DeployStatus :=
  [.Initial, .Waiting, .Deploying, .Destroying, .Deployed, .Destroyed, .Failed]

/-- Sum of a counter record over every deploy status bucket. -/
def sumCounter (c : DeployStatus → Int) : Int :=
  (statusList.map c).sum

/-! ### Lemmas: match registry -/

theorem getCssMatched_setMatchInfo_self (reg : MatchInfoReg) (el : ElemId) (mi : MatchInfo) :
    getCssMatched (setMatchInfo reg el mi) el = mi := by
  simp [getCssMatched, setMatchInfo, List.lookup]

theorem getCssMatched_setMatchInfo_ne (reg : MatchInfoReg) (el el2 : ElemId) (mi : MatchInfo)
    (h : el2 ≠ el) : getCssMatched (setMatchInfo reg el mi) el2 = getCssMatched reg el2 := by
  have hbe : (el2 == el) = false := by simp [h]
  simp [getCssMatched, setMatchInfo, List.lookup, hbe]

theorem addRuleToSet_contains (l : List RuleId) (r : RuleId) :
    (addRuleToSet l r).contains r = true := by
  unfold addRuleToSet
  split
  · assumption
  · simp

theorem addRuleToSet_mono (l : List RuleId) (r x : RuleId) (h : l.contains x = true) :
    (addRuleToSet l r).contains x = true := by
  unfold addRuleToSet
  split
  · exact h
  · have hx : x ∈ l := by simpa using h
    have hx2 : x ∈ l ++ [r] := List.mem_append_left _ hx
    simpa using hx2

theorem foldl_addRuleToSet_mono (l2 l : List RuleId) (x : RuleId) (h : l.contains x = true) :
    (l2.foldl addRuleToSet l).contains x = true := by
  induction l2 generalizing l with
  | nil => exact h
  | cons y ys ih => exact ih _ (addRuleToSet_mono l y x h)

theorem foldl_addRuleToSet_contains_of_mem (l2 l : List RuleId) (x : RuleId)
    (h : l2.contains x = true) : (l2.foldl addRuleToSet l).contains x = true := by
  induction l2 generalizing l with
  | nil => simp at h
  | cons y ys ih =>
    rcases (show x = y ∨ ys.contains x = true by simpa using h) with hx | hx
    · subst hx
      exact foldl_addRuleToSet_mono ys (addRuleToSet l x) x (addRuleToSet_contains l x)
    · exact ih _ hx

theorem ruleMatches_eq (reg : MatchInfoReg) (el : ElemId) (r : RuleId) :
    ruleMatches reg el r =
      setMatchInfo reg el
        { matched := some (addRuleToSet ((getCssMatched reg el).matched.getD []) r)
          neverMatch := (getCssMatched reg el).neverMatch } := rfl

theorem neverMatch_eq (reg : MatchInfoReg) (el : ElemId) :
    neverMatch reg el =
      setMatchInfo reg el
        { matched := (getCssMatched reg el).matched, neverMatch := true } := rfl

theorem copyRuleMatches_eq (reg : MatchInfoReg) (f t : ElemId) :
    copyRuleMatches reg f t =
      if (getCssMatched reg f).neverMatch then
        setMatchInfo reg t { matched := (getCssMatched reg t).matched, neverMatch := true }
      else
        match (getCssMatched reg f).matched with
        | some l =>
          setMatchInfo reg t
            { matched := some (l.foldl addRuleToSet ((getCssMatched reg t).matched.getD []))
              neverMatch := (getCssMatched reg t).neverMatch }
        | none => reg := rfl

theorem ruleHasMatched_set_lit (reg : MatchInfoReg) (el : ElemId) (r : RuleId)
    (om : Option (List RuleId)) (b : Bool) :
    ruleHasMatched (setMatchInfo reg el { matched := om, neverMatch := b }) el r =
      match om with
      | none => false
      | some l => l.contains r := by
  unfold ruleHasMatched
  rw [getCssMatched_setMatchInfo_self]

theorem ruleHasMatched_set_ne (reg : MatchInfoReg) (el el2 : ElemId) (r : RuleId)
    (mi : MatchInfo) (h : el2 ≠ el) :
    ruleHasMatched (setMatchInfo reg el mi) el2 r = ruleHasMatched reg el2 r := by
  unfold ruleHasMatched
  rw [getCssMatched_setMatchInfo_ne _ _ _ _ h]

theorem ruleHasMatched_ruleMatches_self (reg : MatchInfoReg) (e : ElemId) (r : RuleId) :
    ruleHasMatched (ruleMatches reg e r) e r = true := by
  rw [ruleMatches_eq, ruleHasMatched_set_lit]
  exact addRuleToSet_contains _ r

theorem matched_spec_of_hasMatched (reg : MatchInfoReg) (e : ElemId) (r : RuleId)
    (h : ruleHasMatched reg e r = true) :
    ∃ l, (getCssMatched reg e).matched = some l ∧ l.contains r = true := by
  unfold ruleHasMatched at h
  cases hm : (getCssMatched reg e).matched with
  | none => rw [hm] at h; exact absurd h (by simp)
  | some l => rw [hm] at h; exact ⟨l, rfl, h⟩

theorem ruleHasMatched_applyRegOp (reg : MatchInfoReg) (op : RegOp) (e : ElemId) (r : RuleId)
    (h : ruleHasMatched reg e r = true) :
    ruleHasMatched (applyRegOp reg op) e r = true := by
  obtain ⟨l, hl, hc⟩ := matched_spec_of_hasMatched reg e r h
  cases op with
  | mark el2 r2 =>
    show ruleHasMatched (ruleMatches reg el2 r2) e r = true
    rw [ruleMatches_eq]
    by_cases he : e = el2
    · subst he
      rw [ruleHasMatched_set_lit]
      have hgd : ((getCssMatched reg e).matched.getD []).contains r = true := by
        rw [hl]
        exact hc
      exact addRuleToSet_mono _ r2 r hgd
    · rw [ruleHasMatched_set_ne _ _ _ _ _ he]
      exact h
  | never el2 =>
    show ruleHasMatched (neverMatch reg el2) e r = true
    rw [neverMatch_eq]
    by_cases he : e = el2
    · subst he
      rw [ruleHasMatched_set_lit]
      rw [hl]
      exact hc
    · rw [ruleHasMatched_set_ne _ _ _ _ _ he]
      exact h
  | copy f2 t2 =>
    show ruleHasMatched (copyRuleMatches reg f2 t2) e r = true
    by_cases hnm : (getCssMatched reg f2).neverMatch = true
    · have hce : copyRuleMatches reg f2 t2 =
          setMatchInfo reg t2 { matched := (getCssMatched reg t2).matched, neverMatch := true } := by
        rw [copyRuleMatches_eq, if_pos hnm]
      rw [hce]
      by_cases he : e = t2
      · subst he
        rw [ruleHasMatched_set_lit]
        rw [hl]
        exact hc
      · rw [ruleHasMatched_set_ne _ _ _ _ _ he]
        exact h
    · cases hfm : (getCssMatched reg f2).matched with
      | none =>
        have hce : copyRuleMatches reg f2 t2 = reg := by
          rw [copyRuleMatches_eq, if_neg hnm, hfm]
        rw [hce]
        exact h
      | some lf =>
        have hce : copyRuleMatches reg f2 t2 =
            setMatchInfo reg t2
              { matched := some (lf.foldl addRuleToSet ((getCssMatched reg t2).matched.getD []))
                neverMatch := (getCssMatched reg t2).neverMatch } := by
          rw [copyRuleMatches_eq, if_neg hnm, hfm]
        rw [hce]
        by_cases he : e = t2
        · subst he
          rw [ruleHasMatched_set_lit]
          have hgd : ((getCssMatched reg e).matched.getD []).contains r = true := by
            rw [hl]
            exact hc
          exact foldl_addRuleToSet_mono lf _ r hgd
        · rw [ruleHasMatched_set_ne _ _ _ _ _ he]
          exact h

theorem ruleHasMatched_applyRegOps (reg : MatchInfoReg) (ops : List RegOp) (e : ElemId)
    (r : RuleId) (h : ruleHasMatched reg e r = true) :
    ruleHasMatched (applyRegOps reg ops) e r = true := by
  induction ops generalizing reg with
  | nil => exact h
  | cons op ops ih => exact ih _ (ruleHasMatched_applyRegOp reg op e r h)

theorem ruleShouldApply_eq_false_of_hasMatched (reg : MatchInfoReg) (e : ElemId) (r : RuleId)
    (h : ruleHasMatched reg e r = true) : ruleShouldApply reg e r = false := by
  simp [ruleShouldApply, h]

/-! ### Claim theorems: match registry -/

/-- C1: once ruleMatches has recorded that rule r matched element instance e,
ruleHasMatched answers true, the build-engine guard no longer lets r apply to
e, and both facts persist through every further registry operation of the
same build pass. -/
theorem rule_no_double_match (reg : MatchInfoReg) (e : ElemId) (r : RuleId) (ops : List RegOp) :
    ruleHasMatched (ruleMatches reg e r) e r = true ∧
    ruleShouldApply (ruleMatches reg e r) e r = false ∧
    ruleHasMatched (applyRegOps (ruleMatches reg e r) ops) e r = true ∧
    ruleShouldApply (applyRegOps (ruleMatches reg e r) ops) e r = false := by
  have h1 := ruleHasMatched_ruleMatches_self reg e r
  have h3 := ruleHasMatched_applyRegOps (ruleMatches reg e r) ops e r h1
  exact ⟨h1, ruleShouldApply_eq_false_of_hasMatched _ _ _ h1, h3,
    ruleShouldApply_eq_false_of_hasMatched _ _ _ h3⟩

/-- C7 counterexample: the claim states that ruleNoRematch copies all rules
recorded as matched for the original element AND the neverMatch flag onto the
replacement element.  In copyRuleMatches the two propagations are exclusive
branches of an if/else-if: when the original carries neverMatch, its matched
set is not copied.  Concretely, with rule 5 recorded as matched for element 0
and element 0 flagged neverMatch, ruleNoRematch onto fresh element 1 leaves
rule 5 absent from the match record of element 1. -/
theorem ruleNoRematch_counterexample :
    ruleNoRematch
        { origElement := 0, matchInfoReg := neverMatch (ruleMatches createMatchInfoReg 0 5) 0 }
        { id := 1, mounted := false } =
      .ok (copyRuleMatches (neverMatch (ruleMatches createMatchInfoReg 0 5) 0) 0 1) ∧
    ruleHasMatched (neverMatch (ruleMatches createMatchInfoReg 0 5) 0) 0 5 = true ∧
    ruleHasMatched (copyRuleMatches (neverMatch (ruleMatches createMatchInfoReg 0 5) 0) 0 1) 1 5
      = false := by
  refine ⟨rfl, by decide, by decide⟩

/-- C7 as amended: ruleNoRematch propagates the match record of the original
element onto an unmounted replacement as follows: when the original is not
flagged neverMatch, every rule recorded as matched for it (in particular the
rule that produced the replacement) is copied; when it is flagged neverMatch,
that flag alone is copied; in both cases the build-engine guard refuses to
apply any already-matched rule to the replacement.  ruleNoRematch throws when
the replacement is already mounted, and a fresh element without propagation
has an empty record, so any rule may still match it. -/
theorem ruleNoRematch_amended :
    (∀ (reg : MatchInfoReg) (e e2 : ElemId) (r : RuleId),
      (getCssMatched reg e).neverMatch = false →
      ruleHasMatched reg e r = true →
      ruleHasMatched (copyRuleMatches reg e e2) e2 r = true) ∧
    (∀ (reg : MatchInfoReg) (e e2 : ElemId),
      (getCssMatched reg e).neverMatch = true →
      canMatch (copyRuleMatches reg e e2) e2 = false) ∧
    (∀ (reg : MatchInfoReg) (e e2 : ElemId) (r : RuleId),
      ruleHasMatched reg e r = true →
      ruleShouldApply (copyRuleMatches reg e e2) e2 r = false) ∧
    (∀ (info : StyleBuildInfoM) (elem : NewElem),
      elem.mounted = true →
      ruleNoRematch info elem =
        .error "elem has already been mounted. elem must be a newly created element") ∧
    (∀ (info : StyleBuildInfoM) (elem : NewElem),
      elem.mounted = false →
      ruleNoRematch info elem =
        .ok (copyRuleMatches info.matchInfoReg info.origElement elem.id)) ∧
    (∀ (reg : MatchInfoReg) (e2 : ElemId) (r2 : RuleId),
      reg.lookup e2 = none → ruleShouldApply reg e2 r2 = true) := by
  have hcnm : ∀ (reg : MatchInfoReg) (e e2 : ElemId),
      (getCssMatched reg e).neverMatch = true →
      canMatch (copyRuleMatches reg e e2) e2 = false := by
    intro reg e e2 hnm
    have hce : copyRuleMatches reg e e2 =
        setMatchInfo reg e2 { matched := (getCssMatched reg e2).matched, neverMatch := true } := by
      rw [copyRuleMatches_eq, if_pos hnm]
    rw [hce]
    unfold canMatch
    rw [getCssMatched_setMatchInfo_self]
    rfl
  have hcopy : ∀ (reg : MatchInfoReg) (e e2 : ElemId) (r : RuleId),
      (getCssMatched reg e).neverMatch = false →
      ruleHasMatched reg e r = true →
      ruleHasMatched (copyRuleMatches reg e e2) e2 r = true := by
    intro reg e e2 r hnm h
    obtain ⟨l, hl, hc⟩ := matched_spec_of_hasMatched reg e r h
    have hnot : ¬((getCssMatched reg e).neverMatch = true) := by
      rw [hnm]
      exact Bool.false_ne_true
    have hce : copyRuleMatches reg e e2 =
        setMatchInfo reg e2
          { matched := some (l.foldl addRuleToSet ((getCssMatched reg e2).matched.getD []))
            neverMatch := (getCssMatched reg e2).neverMatch } := by
      rw [copyRuleMatches_eq, if_neg hnot, hl]
    rw [hce, ruleHasMatched_set_lit]
    exact foldl_addRuleToSet_contains_of_mem l _ r hc
  refine ⟨hcopy, hcnm, ?_, ?_, ?_, ?_⟩
  · intro reg e e2 r h
    cases hnm : (getCssMatched reg e).neverMatch with
    | false =>
      exact ruleShouldApply_eq_false_of_hasMatched _ _ _ (hcopy reg e e2 r hnm h)
    | true =>
      simp [ruleShouldApply, hcnm reg e e2 hnm]
  · intro info elem hm
    unfold ruleNoRematch
    rw [hm]
    simp
  · intro info elem hm
    unfold ruleNoRematch
    rw [hm]
    simp
  · intro reg e2 r2 hle
    simp [ruleShouldApply, canMatch, ruleHasMatched, getCssMatched, hle]

/-- Witness for the amended C7 theorem at concrete inputs: rule 5 recorded as
matched for unflagged element 0 is copied onto element 1 and no longer
applies there; a mounted replacement makes ruleNoRematch throw; a fresh
element is still matchable by any rule. -/
theorem ruleNoRematch_amended_witness :
    ruleHasMatched (copyRuleMatches (ruleMatches createMatchInfoReg 0 5) 0 1) 1 5 = true ∧
    ruleShouldApply (copyRuleMatches (ruleMatches createMatchInfoReg 0 5) 0 1) 1 5 = false ∧
    ruleNoRematch { origElement := 0, matchInfoReg := createMatchInfoReg }
        { id := 1, mounted := true } =
      .error "elem has already been mounted. elem must be a newly created element" ∧
    ruleShouldApply createMatchInfoReg 1 7 = true :=
  ⟨ruleNoRematch_amended.1 (ruleMatches createMatchInfoReg 0 5) 0 1 5 (by decide) (by decide),
   ruleNoRematch_amended.2.2.1 (ruleMatches createMatchInfoReg 0 5) 0 1 5 (by decide),
   ruleNoRematch_amended.2.2.2.1 _ _ (by decide),
   ruleNoRematch_amended.2.2.2.2.2 createMatchInfoReg 1 7 (by decide)⟩

/-! ### Lemmas: selector matching -/

theorem strictInitSegs_mem_iff (n : Nat) : ∀ (path : DomPath), path.length ≤ n →
    ∀ t, (t ∈ strictInitSegs path ↔ ∃ k, 1 ≤ k ∧ k < path.length ∧ t = path.take k) := by
  induction n with
  | zero =>
    intro path hlen t
    have hp : path = [] := List.length_eq_zero.mp (Nat.le_zero.mp hlen)
    subst hp
    rw [strictInitSegs]
    simp
  | succ n ih =>
    intro path hlen t
    rw [strictInitSegs]
    by_cases hemp : path.dropLast.isEmpty = true
    · rw [dif_pos hemp]
      have hshort : path.length ≤ 1 := by
        have h0 : path.dropLast.length = 0 := by
          rw [List.isEmpty_iff] at hemp
          rw [hemp]
          rfl
        rw [List.length_dropLast] at h0
        omega
      simp only [List.not_mem_nil, false_iff]
      rintro ⟨k, hk1, hk2, _⟩
      omega
    · rw [dif_neg hemp]
      have hlen2 : path.dropLast.length = path.length - 1 := List.length_dropLast path
      have hpos : 1 ≤ path.dropLast.length := by
        rcases Nat.eq_zero_or_pos path.dropLast.length with h0 | h0
        · rw [List.isEmpty_iff] at hemp
          exact absurd (List.length_eq_zero.mp h0) hemp
        · exact h0
      have hplen : 2 ≤ path.length := by omega
      have hdl : path.dropLast = path.take (path.length - 1) := List.dropLast_eq_take path
      have htake : ∀ k, k ≤ path.length - 1 → path.dropLast.take k = path.take k := by
        intro k hk
        rw [hdl, List.take_take, Nat.min_eq_left hk]
      constructor
      · intro hmem
        rcases List.mem_cons.mp hmem with hhd | htl
        · exact ⟨path.length - 1, by omega, by omega, by rw [hhd, hdl]⟩
        · obtain ⟨k, hk1, hk2, hkt⟩ :=
            (ih path.dropLast (by omega) t).mp htl
          refine ⟨k, hk1, by omega, ?_⟩
          rw [hkt, htake k (by omega)]
      · rintro ⟨k, hk1, hk2, hkt⟩
        by_cases hk : k = path.length - 1
        · subst hk
          exact List.mem_cons.mpr (Or.inl (by rw [hkt, hdl]))
        · refine List.mem_cons.mpr (Or.inr ?_)
          refine (ih path.dropLast (by omega) t).mpr ⟨k, hk1, by omega, ?_⟩
          rw [hkt, htake k (by omega)]

theorem matchWithBlock_child_eq (rest : List SelFrag) (path : DomPath) (hne : path ≠ []) :
    matchWithBlock (SelFrag.child :: rest) path =
      if path.dropLast.isEmpty then false else matchWithBlock rest path.dropLast := by
  rw [matchWithBlock]
  have hfrag : matchFrag SelFrag.child path =
      { newPath := path.dropLast, matched := true } := by
    rw [matchFrag]
    unfold matchChild
    rw [if_neg (show ¬(path.length < 1) by
      have := List.length_pos.mpr hne
      omega)]
  rw [hfrag]
  simp
  intro hcontra
  exact SelFrag.noConfusion hcontra

theorem matchDescendantList_spec (pre : List SelFrag) (cands : List DomPath) :
    matchDescendantList pre cands = true ↔ ∃ t ∈ cands, matchWithBlock pre t = true := by
  induction cands with
  | nil =>
    rw [matchDescendantList]
    simp
  | cons c cs ih =>
    rw [matchDescendantList]
    simp only [Bool.or_eq_true, ih, List.mem_cons]
    constructor
    · rintro (hc | ⟨t, ht, hm⟩)
      · exact ⟨c, Or.inl rfl, hc⟩
      · exact ⟨t, Or.inr ht, hm⟩
    · rintro ⟨t, hc | ht, hm⟩
      · subst hc
        exact Or.inl hm
      · exact Or.inr ⟨t, ht, hm⟩

/-! ### Claim theorem: selector combinators -/

/-- C6: over the reversed-block representation the remaining selector prefix
is the tail rest.  For every nonempty path, a block whose last fragment is
the child combinator matches exactly when the path has a parent (length at
least two) and the remaining prefix matches the path shortened by one
element; a block whose last fragment is the descendant combinator matches
exactly when the remaining prefix matches some nonempty strict ancestor
path-prefix (path.take k for some k between 1 and the path length, tried
nearest first inside matchDescendantList, the first match winning). -/
theorem selector_combinator_semantics (rest : List SelFrag) (path : DomPath)
    (hne : path ≠ []) :
    (matchWithBlock (SelFrag.child :: rest) path = true ↔
      2 ≤ path.length ∧ matchWithBlock rest path.dropLast = true) ∧
    (matchWithBlock (SelFrag.descendant :: rest) path = true ↔
      ∃ k, 1 ≤ k ∧ k < path.length ∧ matchWithBlock rest (path.take k) = true) := by
  have hpos : 1 ≤ path.length := List.length_pos.mpr hne
  constructor
  · rw [matchWithBlock_child_eq rest path hne]
    by_cases hemp : path.dropLast.isEmpty = true
    · have h1 : path.length = 1 := by
        have h0 := List.isEmpty_iff.mp hemp
        have := List.length_dropLast path
        rw [h0] at this
        simp at this
        omega
      rw [if_pos hemp]
      simp only [Bool.false_eq_true, false_iff]
      rintro ⟨h2, _⟩
      omega
    · have h2 : 2 ≤ path.length := by
        have hpos2 : 0 < path.dropLast.length := by
          rcases Nat.eq_zero_or_pos path.dropLast.length with h0 | h0
          · exact absurd (List.isEmpty_iff.mpr (List.length_eq_zero.mp h0)) hemp
          · exact h0
        have := List.length_dropLast path
        omega
      rw [if_neg hemp]
      simp [h2]
  · rw [matchWithBlock]
    rw [matchDescendantList_spec]
    constructor
    · rintro ⟨t, ht, hm⟩
      obtain ⟨k, hk1, hk2, hkt⟩ :=
        (strictInitSegs_mem_iff path.length path (Nat.le_refl _) t).mp ht
      exact ⟨k, hk1, hk2, by rw [← hkt]; exact hm⟩
    · rintro ⟨k, hk1, hk2, hm⟩
      refine ⟨path.take k, ?_, hm⟩
      exact (strictInitSegs_mem_iff path.length path (Nat.le_refl _) _).mpr ⟨k, hk1, hk2, rfl⟩

/-- Witness for C6 on a concrete two-element path and a one-fragment
remaining prefix. -/
theorem selector_combinator_semantics_witness :
    (([⟨3, []⟩, ⟨4, []⟩] : DomPath) ≠ []) ∧
    ((matchWithBlock (SelFrag.child :: [SelFrag.tag 3]) [⟨3, []⟩, ⟨4, []⟩] = true ↔
        2 ≤ ([⟨3, []⟩, ⟨4, []⟩] : DomPath).length ∧
        matchWithBlock [SelFrag.tag 3] (([⟨3, []⟩, ⟨4, []⟩] : DomPath).dropLast) = true) ∧
      (matchWithBlock (SelFrag.descendant :: [SelFrag.tag 3]) [⟨3, []⟩, ⟨4, []⟩] = true ↔
        ∃ k, 1 ≤ k ∧ k < ([⟨3, []⟩, ⟨4, []⟩] : DomPath).length ∧
          matchWithBlock [SelFrag.tag 3] (([⟨3, []⟩, ⟨4, []⟩] : DomPath).take k) = true)) :=
  ⟨by decide, selector_combinator_semantics [SelFrag.tag 3] [⟨3, []⟩, ⟨4, []⟩] (by decide)⟩


/-! ### Lemmas: observer registry -/

theorem observe_foldl (observers : List (String × ObserverFn))
    (eqs : List (String × List Query)) (names : List String)
    (ret : List (String × ObsEntry)) (warns errs : List String) :
    names.foldl (observeStep observers eqs) (ret, warns, errs) =
      (ret ++ observeSuccessSpec observers eqs names,
       warns ++ observeFailureSpec observers eqs names,
       errs ++ observeFailureSpec observers eqs names) := by
  induction names generalizing ret warns errs with
  | nil => simp [observeSuccessSpec, observeFailureSpec]
  | cons name rest ih =>
    rw [List.foldl_cons]
    cases hob : observers.lookup name with
    | none =>
      have hstep : observeStep observers eqs (ret, warns, errs) name = (ret, warns, errs) := by
        simp [observeStep, hob]
      rw [hstep, ih]
      simp [observeSuccessSpec, observeFailureSpec, List.filterMap_cons, hob]
    | some obs =>
      cases hrun : obs ((eqs.lookup name).getD []) with
      | ok o =>
        have hstep : observeStep observers eqs (ret, warns, errs) name =
            (ret ++ [(name, { observations := o, queries := (eqs.lookup name).getD [] })],
             warns, errs) := by
          simp [observeStep, hob, hrun]
        rw [hstep, ih]
        simp [observeSuccessSpec, observeFailureSpec, List.filterMap_cons, hob, hrun]
      | error e =>
        have hstep : observeStep observers eqs (ret, warns, errs) name =
            (ret, warns ++ ["Error observing for " ++ name ++ ": " ++ e],
             errs ++ ["Error observing for " ++ name ++ ": " ++ e]) := by
          simp [observeStep, hob, hrun]
        rw [hstep, ih]
        simp [observeSuccessSpec, observeFailureSpec, List.filterMap_cons, hob, hrun]

/-! ### Claim theorems: observer registry -/

/-- C2: observe runs every named registered observer to completion: the
warnings logged are exactly one per failing observer; with no failure the
result is the observations of all observers; with failures the result is one
aggregate error whose message joins the individual messages and which carries
the observations of all observers that succeeded. -/
theorem observe_error_aggregation (observers : List (String × ObserverFn))
    (eqs : List (String × List Query)) (names : List String) :
    (observe observers eqs names).warnings = observeFailureSpec observers eqs names ∧
    (observeFailureSpec observers eqs names = [] →
      (observe observers eqs names).result = .ok (observeSuccessSpec observers eqs names)) ∧
    (observeFailureSpec observers eqs names ≠ [] →
      (observe observers eqs names).result =
        .error ("Errors during observations:\n" ++
            String.intercalate "\n" (observeFailureSpec observers eqs names),
          observeSuccessSpec observers eqs names)) := by
  by_cases hf : observeFailureSpec observers eqs names = []
  · refine ⟨?_, fun _ => ?_, fun hne => absurd hf hne⟩ <;>
      simp [observe, observe_foldl, hf]
  · have hne : (observeFailureSpec observers eqs names).isEmpty = false := by
      cases hl : observeFailureSpec observers eqs names with
      | nil => exact absurd hl hf
      | cons a l => rfl
    refine ⟨?_, fun heq => absurd heq hf, fun _ => ?_⟩ <;>
      simp [observe, observe_foldl, hne]

/-- Witness for C2: observer a succeeds with data 1 on queries [7], observer
b throws boom; observe returns the aggregate error carrying the partial
result of a, with one warning for b. -/
theorem observe_error_aggregation_witness :
    observeFailureSpec [("a", fun _ => Except.ok 1), ("b", fun _ => Except.error "boom")]
        [("a", [7])] ["a", "b"] ≠ [] ∧
    (observe [("a", fun _ => Except.ok 1), ("b", fun _ => Except.error "boom")]
        [("a", [7])] ["a", "b"]).result =
      .error ("Errors during observations:\n" ++
          String.intercalate "\n"
            (observeFailureSpec [("a", fun _ => Except.ok 1), ("b", fun _ => Except.error "boom")]
              [("a", [7])] ["a", "b"]),
        observeSuccessSpec [("a", fun _ => Except.ok 1), ("b", fun _ => Except.error "boom")]
          [("a", [7])] ["a", "b"]) :=
  ⟨by decide,
   (observe_error_aggregation [("a", fun _ => Except.ok 1), ("b", fun _ => Except.error "boom")]
      [("a", [7])] ["a", "b"]).2.2 (by decide)⟩

/-- C10: a name with no registered observer is skipped silently: the whole
observe outcome (result, partial observations and warnings) is identical to
the outcome with that name omitted, so it contributes no entry, no error and
no warning and does not prevent the other named observers from running. -/
theorem observe_skips_unregistered (observers : List (String × ObserverFn))
    (eqs : List (String × List Query)) (pre post : List String) (u : String)
    (h : observers.lookup u = none) :
    observe observers eqs (pre ++ u :: post) = observe observers eqs (pre ++ post) := by
  have hstep : ∀ acc, observeStep observers eqs acc u = acc := by
    intro acc
    obtain ⟨ret, warns, errs⟩ := acc
    simp [observeStep, h]
  unfold observe
  rw [List.foldl_append, List.foldl_cons, hstep, ← List.foldl_append]

/-- Witness for C10: the unregistered name zz between a and nothing changes
nothing. -/
theorem observe_skips_unregistered_witness :
    observe [("a", fun _ => Except.ok 1)] [] (["a"] ++ "zz" :: []) =
      observe [("a", fun _ => Except.ok 1)] [] (["a"] ++ []) :=
  observe_skips_unregistered [("a", fun _ => Except.ok 1)] [] ["a"] [] "zz" rfl


/-! ### Lemmas: status tracker -/

theorem countStat_cons (p : EPNode × DeployStatusExt) (ps : List (EPNode × DeployStatusExt))
    (d : DeployStatus) :
    countStat (p :: ps) d = (if toDeployStatus p.2 = d then 1 else 0) + countStat ps d := by
  by_cases e : toDeployStatus p.2 = d
  · simp [countStat, List.filter_cons, e, Nat.add_comm]
  · simp [countStat, List.filter_cons, e]

theorem countStat_le_length (m : List (EPNode × DeployStatusExt)) (d : DeployStatus) :
    countStat m d ≤ m.length :=
  List.length_filter_le _ _

theorem countStat_pair_le (m : List (EPNode × DeployStatusExt)) (d1 d2 : DeployStatus)
    (h : d1 ≠ d2) : countStat m d1 + countStat m d2 ≤ m.length := by
  induction m with
  | nil => simp [countStat]
  | cons p ps ih =>
    rw [countStat_cons, countStat_cons]
    by_cases e1 : toDeployStatus p.2 = d1
    · by_cases e2 : toDeployStatus p.2 = d2
      · exact absurd (e1.symm.trans e2) h
      · rw [if_pos e1, if_neg e2]
        simp only [List.length_cons]
        omega
    · by_cases e2 : toDeployStatus p.2 = d2
      · rw [if_neg e1, if_pos e2]
        simp only [List.length_cons]
        omega
      · rw [if_neg e1, if_neg e2]
        simp only [List.length_cons]
        omega

theorem countStat_pos_iff (m : List (EPNode × DeployStatusExt)) (d : DeployStatus) :
    0 < countStat m d ↔ ∃ p ∈ m, toDeployStatus p.2 = d := by
  induction m with
  | nil => simp [countStat]
  | cons p ps ih =>
    rw [countStat_cons]
    by_cases e : toDeployStatus p.2 = d
    · simp only [if_pos e]
      constructor
      · intro _
        exact ⟨p, List.mem_cons_self _ _, e⟩
      · intro _
        omega
    · simp only [if_neg e, Nat.zero_add, ih]
      constructor
      · rintro ⟨q, hq, hs⟩
        exact ⟨q, List.mem_cons_of_mem _ hq, hs⟩
      · rintro ⟨q, hq, hs⟩
        rcases List.mem_cons.mp hq with rfl | hq2
        · exact absurd hs e
        · exact ⟨q, hq2, hs⟩

theorem countStat_goal_sum (m : List (EPNode × DeployStatusExt)) :
    (countStat m .Deployed + countStat m .Destroyed = m.length) ↔
      ∀ p ∈ m, toDeployStatus p.2 = .Deployed ∨ toDeployStatus p.2 = .Destroyed := by
  induction m with
  | nil => simp [countStat]
  | cons p ps ih =>
    rw [countStat_cons, countStat_cons]
    have hle := countStat_pair_le ps .Deployed .Destroyed (by decide)
    have h1 := countStat_le_length ps DeployStatus.Deployed
    have h2 := countStat_le_length ps DeployStatus.Destroyed
    constructor
    · intro hsum q hq
      rcases List.mem_cons.mp hq with rfl | hq2
      · by_cases e1 : toDeployStatus q.2 = .Deployed
        · exact Or.inl e1
        · by_cases e2 : toDeployStatus q.2 = .Destroyed
          · exact Or.inr e2
          · rw [if_neg e1, if_neg e2] at hsum
            simp only [List.length_cons, Nat.zero_add] at hsum
            omega
      · by_cases e1 : toDeployStatus p.2 = .Deployed
        · by_cases e2 : toDeployStatus p.2 = .Destroyed
          · rw [e1] at e2
            exact absurd e2 (by decide)
          · rw [if_pos e1, if_neg e2] at hsum
            simp only [List.length_cons, Nat.zero_add] at hsum
            exact (ih.mp (by omega)) q hq2
        · by_cases e2 : toDeployStatus p.2 = .Destroyed
          · rw [if_neg e1, if_pos e2] at hsum
            simp only [List.length_cons, Nat.zero_add] at hsum
            exact (ih.mp (by omega)) q hq2
          · rw [if_neg e1, if_neg e2] at hsum
            simp only [List.length_cons, Nat.zero_add] at hsum
            omega
    · intro hall
      have htail : countStat ps .Deployed + countStat ps .Destroyed = ps.length :=
        ih.mpr fun q hq => hall q (List.mem_cons_of_mem _ hq)
      rcases hall p (List.mem_cons_self _ _) with e1 | e2
      · rw [if_pos e1, if_neg (by rw [e1]; decide)]
        simp only [List.length_cons]
        omega
      · rw [if_neg (by rw [e2]; decide), if_pos e2]
        simp only [List.length_cons]
        omega

theorem trackerComplete_eq (t : StatusTrackerImpl) (sc : Bool) :
    trackerComplete t sc =
      if t.nodeStatus .Initial > 0 then
        .error (.internalError "Nodes should not be in Initial state")
      else
        .ok (completeStatus t sc,
          match t.stepID with
          | some sid =>
            { t with writes := t.writes ++ [Persist.statusPatch sid (completeStatus t sc) none []] }
          | none => t) := rfl

/-! ### Claim theorems: status tracker set and complete -/

/-- C3: set is a no-op returning false and leaving the whole tracker state
(status map, counters, task map, persisted writes) unchanged whenever the
node is already at the requested extended status or already in a final
status; Failed, Deployed and Destroyed are the final statuses, so a node in
one of them ignores every further set. -/
theorem statusTracker_set_noop :
    (∀ (t : StatusTrackerImpl) (n : EPNode) (statExt : DeployStatusExt)
        (errMsg description : Option String) (oldStat : DeployStatusExt),
      trackerGet t n = some oldStat →
      (statExt = oldStat ∨ isFinalStatus oldStat = true) →
      trackerSet t n statExt errMsg description = some (false, t)) ∧
    isFinalStatus .Failed = true ∧
    isFinalStatus .Deployed = true ∧
    isFinalStatus .Destroyed = true := by
  refine ⟨?_, rfl, rfl, rfl⟩
  intro t n statExt errMsg description oldStat hget hcond
  simp only [trackerSet, hget]
  rw [if_pos hcond]

/-- Witness for C3: a tracker holding one node already Deployed refuses a
transition back to Waiting and returns false with the state untouched. -/
theorem statusTracker_set_noop_witness :
    trackerGet
        { dryRun := false, goalStatus := .Deployed, deployOpID := 0,
          nodeStatus := fun _ => 0, primStatus := fun _ => 0, nonPrimStatus := fun _ => 0,
          statMap := [({ nid := 0, element := none, activeAction := false }, .Deployed)],
          taskMap := [], stepID := none, writes := [] }
        { nid := 0, element := none, activeAction := false } = some DeployStatusExt.Deployed ∧
    trackerSet
        { dryRun := false, goalStatus := .Deployed, deployOpID := 0,
          nodeStatus := fun _ => 0, primStatus := fun _ => 0, nonPrimStatus := fun _ => 0,
          statMap := [({ nid := 0, element := none, activeAction := false }, .Deployed)],
          taskMap := [], stepID := none, writes := [] }
        { nid := 0, element := none, activeAction := false } .Waiting none none =
      some (false,
        { dryRun := false, goalStatus := .Deployed, deployOpID := 0,
          nodeStatus := fun _ => 0, primStatus := fun _ => 0, nonPrimStatus := fun _ => 0,
          statMap := [({ nid := 0, element := none, activeAction := false }, .Deployed)],
          taskMap := [], stepID := none, writes := [] }) :=
  ⟨by decide,
   statusTracker_set_noop.1 _ _ .Waiting none none .Deployed (by decide)
     (Or.inr (by decide))⟩

/-- C4: with counters that agree with the status map, complete throws the
InternalError exactly when some node is still Initial, and otherwise returns
Failed when some node is Failed, else the goal status when every node is at a
goal-terminal status, else StateChanged when acting changed state, else the
in-progress variant of the goal status. -/
theorem statusTracker_complete_spec (t : StatusTrackerImpl) (sc : Bool)
    (hacc : ∀ d, t.nodeStatus d = (countStat t.statMap d : Int)) :
    ((∃ p ∈ t.statMap, toDeployStatus p.2 = .Initial) →
      trackerComplete t sc = .error (.internalError "Nodes should not be in Initial state")) ∧
    ((∀ p ∈ t.statMap, toDeployStatus p.2 ≠ .Initial) →
      ∃ t2, trackerComplete t sc =
        .ok ((if ∃ p ∈ t.statMap, toDeployStatus p.2 = .Failed then .status .Failed
          else if ∀ p ∈ t.statMap,
              toDeployStatus p.2 = .Deployed ∨ toDeployStatus p.2 = .Destroyed then
            .status (goalToDeployStatus t.goalStatus)
          else if sc = true then DeployOpStatus.StateChanged
          else .status (goalToInProgress t.goalStatus)), t2)) := by
  have hInit := countStat_pos_iff t.statMap .Initial
  have hFail := countStat_pos_iff t.statMap .Failed
  have hGoal := countStat_goal_sum t.statMap
  have c1 : (t.nodeStatus .Failed > 0) ↔ ∃ p ∈ t.statMap, toDeployStatus p.2 = .Failed := by
    rw [hacc, gt_iff_lt, Int.natCast_pos]
    exact hFail
  have c2 : (t.nodeStatus .Deployed + t.nodeStatus .Destroyed = (t.statMap.length : Int)) ↔
      ∀ p ∈ t.statMap, toDeployStatus p.2 = .Deployed ∨ toDeployStatus p.2 = .Destroyed := by
    rw [hacc, hacc]
    rw [show ((countStat t.statMap .Deployed : Int) + (countStat t.statMap .Destroyed : Int) =
        (t.statMap.length : Int)) ↔
        (countStat t.statMap .Deployed + countStat t.statMap .Destroyed = t.statMap.length) from
      by exact_mod_cast Iff.rfl]
    exact hGoal
  constructor
  · rintro ⟨p, hp, hs⟩
    have hpos : t.nodeStatus .Initial > 0 := by
      rw [hacc, gt_iff_lt, Int.natCast_pos]
      exact hInit.mpr ⟨p, hp, hs⟩
    rw [trackerComplete_eq, if_pos hpos]
  · intro h0
    have hz : countStat t.statMap .Initial = 0 := by
      by_contra hnz
      obtain ⟨p, hp, hs⟩ := hInit.mp (Nat.pos_of_ne_zero hnz)
      exact h0 p hp hs
    have hnpos : ¬(t.nodeStatus .Initial > 0) := by
      rw [hacc, hz]
      simp
    have hstat : completeStatus t sc =
        (if ∃ p ∈ t.statMap, toDeployStatus p.2 = .Failed then .status .Failed
          else if ∀ p ∈ t.statMap,
              toDeployStatus p.2 = .Deployed ∨ toDeployStatus p.2 = .Destroyed then
            .status (goalToDeployStatus t.goalStatus)
          else if sc = true then DeployOpStatus.StateChanged
          else .status (goalToInProgress t.goalStatus)) := by
      unfold completeStatus
      by_cases f1 : ∃ p ∈ t.statMap, toDeployStatus p.2 = .Failed
      · rw [if_pos (c1.mpr f1), if_pos f1]
      · rw [if_neg (fun hc => f1 (c1.mp hc)), if_neg f1]
        by_cases f2 : ∀ p ∈ t.statMap,
            toDeployStatus p.2 = .Deployed ∨ toDeployStatus p.2 = .Destroyed
        · rw [if_pos (c2.mpr f2), if_pos f2]
        · rw [if_neg (fun hc => f2 (c2.mp hc)), if_neg f2]
    refine ⟨(match t.stepID with
      | some sid =>
        { t with writes := t.writes ++ [Persist.statusPatch sid (completeStatus t sc) none []] }
      | none => t), ?_⟩
    rw [trackerComplete_eq, if_neg hnpos, hstat]

/-- Witness for C4: one node Deployed, accurate counters; complete reports
the goal status Deployed. -/
theorem statusTracker_complete_spec_witness :
    (∀ p ∈ ([({ nid := 0, element := none, activeAction := false }, .Deployed)] :
        List (EPNode × DeployStatusExt)), toDeployStatus p.2 ≠ .Initial) ∧
    ∃ t2, trackerComplete
        { dryRun := false, goalStatus := .Deployed, deployOpID := 0,
          nodeStatus := fun d => if d = .Deployed then 1 else 0,
          primStatus := fun _ => 0, nonPrimStatus := fun _ => 0,
          statMap := [({ nid := 0, element := none, activeAction := false }, .Deployed)],
          taskMap := [], stepID := none, writes := [] } false =
      .ok ((if ∃ p ∈ ([({ nid := 0, element := none, activeAction := false }, .Deployed)] :
            List (EPNode × DeployStatusExt)), toDeployStatus p.2 = .Failed then .status .Failed
        else if ∀ p ∈ ([({ nid := 0, element := none, activeAction := false }, .Deployed)] :
            List (EPNode × DeployStatusExt)),
            toDeployStatus p.2 = .Deployed ∨ toDeployStatus p.2 = .Destroyed then
          .status (goalToDeployStatus GoalStatus.Deployed)
        else if false = true then DeployOpStatus.StateChanged
        else .status (goalToInProgress GoalStatus.Deployed)), t2) :=
  ⟨by decide,
   (statusTracker_complete_spec _ false (by decide)).2 (by decide)⟩

/-! ### Lemmas: counter sums -/

theorem sumCounter_bump (c : DeployStatus → Int) (o n2 : DeployStatus) :
    sumCounter (bumpCounter c o n2) = sumCounter c := by
  cases o <;> cases n2 <;>
    (simp [sumCounter, bumpCounter, statusList]; try ring)

theorem mkTracker_sums (opts : StatusTrackerOptions) :
    sumCounter (mkTracker opts).nodeStatus = (opts.nodes.length : Int) ∧
    sumCounter (mkTracker opts).primStatus =
      ((opts.nodes.filter fun n => match n.element with
        | some e => e.isFinalDom
        | none => false).length : Int) ∧
    sumCounter (mkTracker opts).nonPrimStatus =
      ((opts.nodes.filter fun n => match n.element with
        | some e => !e.isFinalDom
        | none => false).length : Int) := by
  refine ⟨?_, ?_, ?_⟩ <;> simp [mkTracker, sumCounter, statusList]

theorem initDeploymentStatus_fields (t : StatusTrackerImpl) (sid : Nat) :
    (initDeploymentStatus t sid).nodeStatus = t.nodeStatus ∧
    (initDeploymentStatus t sid).primStatus = t.primStatus ∧
    (initDeploymentStatus t sid).nonPrimStatus = t.nonPrimStatus ∧
    (initDeploymentStatus t sid).dryRun = t.dryRun ∧
    (initDeploymentStatus t sid).statMap = t.statMap ∧
    (initDeploymentStatus t sid).taskMap = t.taskMap := by
  unfold initDeploymentStatus
  split <;> exact ⟨rfl, rfl, rfl, rfl, rfl, rfl⟩

theorem updateCount_fields (t : StatusTrackerImpl) (n : EPNode) (o n2 : DeployStatus) :
    sumCounter (updateCount t n o n2).nodeStatus = sumCounter t.nodeStatus ∧
    sumCounter (updateCount t n o n2).primStatus = sumCounter t.primStatus ∧
    sumCounter (updateCount t n o n2).nonPrimStatus = sumCounter t.nonPrimStatus ∧
    (updateCount t n o n2).statMap = t.statMap ∧
    (updateCount t n o n2).taskMap = t.taskMap ∧
    (updateCount t n o n2).stepID = t.stepID ∧
    (updateCount t n o n2).writes = t.writes ∧
    (updateCount t n o n2).dryRun = t.dryRun ∧
    (updateCount t n o n2).nodeStatus = bumpCounter t.nodeStatus o n2 := by
  unfold updateCount
  split
  · exact ⟨sumCounter_bump _ _ _, rfl, rfl, rfl, rfl, rfl, rfl, rfl, rfl⟩
  · split
    · exact ⟨sumCounter_bump _ _ _, sumCounter_bump _ _ _, rfl, rfl, rfl, rfl, rfl, rfl, rfl⟩
    · exact ⟨sumCounter_bump _ _ _, rfl, sumCounter_bump _ _ _, rfl, rfl, rfl, rfl, rfl, rfl⟩

theorem updateTask_fields (t : StatusTrackerImpl) (n : EPNode) (o : DeployStatusExt)
    (n2 : DeployStatus) (e d : Option String) :
    (updateTask t n o n2 e d).nodeStatus = t.nodeStatus ∧
    (updateTask t n o n2 e d).primStatus = t.primStatus ∧
    (updateTask t n o n2 e d).nonPrimStatus = t.nonPrimStatus ∧
    (updateTask t n o n2 e d).statMap = t.statMap ∧
    (updateTask t n o n2 e d).stepID = t.stepID ∧
    (updateTask t n o n2 e d).writes = t.writes ∧
    (updateTask t n o n2 e d).dryRun = t.dryRun := by
  unfold updateTask
  split <;> exact ⟨rfl, rfl, rfl, rfl, rfl, rfl, rfl⟩

theorem writeStatus_fields (t : StatusTrackerImpl) (n : EPNode) (e : Option String)
    (s : DeployStatusExt) :
    (writeStatus t n e s).nodeStatus = t.nodeStatus ∧
    (writeStatus t n e s).primStatus = t.primStatus ∧
    (writeStatus t n e s).nonPrimStatus = t.nonPrimStatus ∧
    (writeStatus t n e s).statMap = t.statMap ∧
    (writeStatus t n e s).taskMap = t.taskMap ∧
    (writeStatus t n e s).stepID = t.stepID ∧
    (writeStatus t n e s).dryRun = t.dryRun := by
  unfold writeStatus
  split <;> exact ⟨rfl, rfl, rfl, rfl, rfl, rfl, rfl⟩

theorem trackerSet_preserves (t : StatusTrackerImpl) (n : EPNode) (s : DeployStatusExt)
    (e d : Option String) (b : Bool) (t2 : StatusTrackerImpl)
    (h : trackerSet t n s e d = some (b, t2)) :
    sumCounter t2.nodeStatus = sumCounter t.nodeStatus ∧
    sumCounter t2.primStatus = sumCounter t.primStatus ∧
    sumCounter t2.nonPrimStatus = sumCounter t.nonPrimStatus ∧
    t2.stepID = t.stepID ∧
    t2.dryRun = t.dryRun := by
  cases hget : trackerGet t n with
  | none =>
    simp only [trackerSet, hget] at h
    exact Option.noConfusion h
  | some oldStat =>
    simp only [trackerSet, hget] at h
    split at h
    · have hp := Option.some.inj h
      have ht := congrArg Prod.snd hp
      simp only at ht
      rw [← ht]
      exact ⟨rfl, rfl, rfl, rfl, rfl⟩
    · have hp := Option.some.inj h
      have ht := congrArg Prod.snd hp
      simp only at ht
      rw [← ht]
      have t1eq : ({ t with statMap := updAssoc t.statMap n s } : StatusTrackerImpl).nodeStatus
          = t.nodeStatus := rfl
      have hcf := updateCount_fields { t with statMap := updAssoc t.statMap n s } n
        (toDeployStatus oldStat) (toDeployStatus s)
      have huf := updateTask_fields
        (updateCount { t with statMap := updAssoc t.statMap n s } n
          (toDeployStatus oldStat) (toDeployStatus s)) n oldStat (toDeployStatus s) e d
      have hwf := writeStatus_fields
        (updateTask
          (updateCount { t with statMap := updAssoc t.statMap n s } n
            (toDeployStatus oldStat) (toDeployStatus s)) n oldStat (toDeployStatus s) e d) n e s
      refine ⟨?_, ?_, ?_, ?_, ?_⟩
      · rw [hwf.1, huf.1]
        exact hcf.1
      · rw [hwf.2.1, huf.2.1]
        exact hcf.2.1
      · rw [hwf.2.2.1, huf.2.2.1]
        exact hcf.2.2.1
      · rw [hwf.2.2.2.2.2.1, huf.2.2.2.2.1]
        exact hcf.2.2.2.2.2.1
      · rw [hwf.2.2.2.2.2.2, huf.2.2.2.2.2.2]
        exact hcf.2.2.2.2.2.2.2.1

theorem applySets_preserves (calls : List SetCall) : ∀ (t : StatusTrackerImpl),
    sumCounter (applySets t calls).nodeStatus = sumCounter t.nodeStatus ∧
    sumCounter (applySets t calls).primStatus = sumCounter t.primStatus ∧
    sumCounter (applySets t calls).nonPrimStatus = sumCounter t.nonPrimStatus ∧
    (applySets t calls).stepID = t.stepID ∧
    (applySets t calls).dryRun = t.dryRun := by
  induction calls with
  | nil => intro t; exact ⟨rfl, rfl, rfl, rfl, rfl⟩
  | cons c cs ih =>
    intro t
    cases hset : trackerSet t c.n c.statExt c.errMsg c.description with
    | none =>
      simp only [applySets, hset]
      exact ih t
    | some bt =>
      obtain ⟨b, t2⟩ := bt
      simp only [applySets, hset]
      have hp := trackerSet_preserves t c.n c.statExt c.errMsg c.description b t2 hset
      have hi := ih t2
      exact ⟨hi.1.trans hp.1, hi.2.1.trans hp.2.1, hi.2.2.1.trans hp.2.2.1,
        hi.2.2.2.1.trans hp.2.2.2.1, hi.2.2.2.2.trans hp.2.2.2.2⟩

/-! ### Claim theorem: counter sums -/

/-- C9: for every constructed tracker and every sequence of set calls, the
total counters sum to the number of nodes and the primitive and
non-primitive counters sum to the number of element-bearing nodes whose
element is, respectively is not, a final DOM element; each successful set
bumps the counters by exactly one decrement of the old bucket and one
increment of the new bucket. -/
theorem statusTracker_counter_sums :
    (∀ (opts : StatusTrackerOptions) (sid : Nat) (calls : List SetCall),
      sumCounter (applySets (createStatusTracker opts sid) calls).nodeStatus =
        (opts.nodes.length : Int) ∧
      sumCounter (applySets (createStatusTracker opts sid) calls).primStatus =
        ((opts.nodes.filter fun n => match n.element with
          | some e => e.isFinalDom
          | none => false).length : Int) ∧
      sumCounter (applySets (createStatusTracker opts sid) calls).nonPrimStatus =
        ((opts.nodes.filter fun n => match n.element with
          | some e => !e.isFinalDom
          | none => false).length : Int)) ∧
    (∀ (t : StatusTrackerImpl) (n : EPNode) (s : DeployStatusExt) (e d : Option String)
        (t2 : StatusTrackerImpl),
      trackerSet t n s e d = some (true, t2) →
      ∃ oldStat, trackerGet t n = some oldStat ∧
        t2.nodeStatus = bumpCounter t.nodeStatus (toDeployStatus oldStat) (toDeployStatus s)) := by
  constructor
  · intro opts sid calls
    have hap := applySets_preserves calls (createStatusTracker opts sid)
    have hif := initDeploymentStatus_fields (mkTracker opts) sid
    have hmk := mkTracker_sums opts
    refine ⟨?_, ?_, ?_⟩
    · rw [hap.1]
      show sumCounter (initDeploymentStatus (mkTracker opts) sid).nodeStatus = _
      rw [hif.1]
      exact hmk.1
    · rw [hap.2.1]
      show sumCounter (initDeploymentStatus (mkTracker opts) sid).primStatus = _
      rw [hif.2.1]
      exact hmk.2.1
    · rw [hap.2.2.1]
      show sumCounter (initDeploymentStatus (mkTracker opts) sid).nonPrimStatus = _
      rw [hif.2.2.1]
      exact hmk.2.2
  · intro t n s e d t2 h
    cases hget : trackerGet t n with
    | none =>
      simp only [trackerSet, hget] at h
      exact Option.noConfusion h
    | some oldStat =>
      refine ⟨oldStat, rfl, ?_⟩
      simp only [trackerSet, hget] at h
      split at h
      · have hp := Option.some.inj h
        have hb := congrArg Prod.fst hp
        simp only at hb
        exact Bool.noConfusion hb
      · have hp := Option.some.inj h
        have ht := congrArg Prod.snd hp
        simp only at ht
        rw [← ht]
        have hcf := updateCount_fields { t with statMap := updAssoc t.statMap n s } n
          (toDeployStatus oldStat) (toDeployStatus s)
        have huf := updateTask_fields
          (updateCount { t with statMap := updAssoc t.statMap n s } n
            (toDeployStatus oldStat) (toDeployStatus s)) n oldStat (toDeployStatus s) e d
        have hwf := writeStatus_fields
          (updateTask
            (updateCount { t with statMap := updAssoc t.statMap n s } n
              (toDeployStatus oldStat) (toDeployStatus s)) n oldStat (toDeployStatus s) e d) n e s
        rw [hwf.1, huf.1]
        exact hcf.2.2.2.2.2.2.2.2

/-- Witness for C9 on one waiting node driven to Deployed: the sums stay at
one node and the successful set bumps Waiting down and Deployed up. -/
theorem statusTracker_counter_sums_witness :
    sumCounter (applySets
      (createStatusTracker
        { dryRun := false, goalStatus := .Deployed,
          nodes := [{ nid := 0, element := none, activeAction := false }], deployOpID := 0 } 9)
      [{ n := { nid := 0, element := none, activeAction := false }, statExt := .Deployed,
         errMsg := none, description := none }]).nodeStatus = 1 ∧
    ∃ oldStat,
      trackerGet
        (createStatusTracker
          { dryRun := false, goalStatus := .Deployed,
            nodes := [{ nid := 0, element := none, activeAction := false }], deployOpID := 0 } 9)
        { nid := 0, element := none, activeAction := false } = some oldStat ∧
      (applySets
        (createStatusTracker
          { dryRun := false, goalStatus := .Deployed,
            nodes := [{ nid := 0, element := none, activeAction := false }], deployOpID := 0 } 9)
        [{ n := { nid := 0, element := none, activeAction := false }, statExt := .Deployed,
           errMsg := none, description := none }]).nodeStatus =
        bumpCounter
          (createStatusTracker
            { dryRun := false, goalStatus := .Deployed,
              nodes := [{ nid := 0, element := none, activeAction := false }], deployOpID := 0 } 9).nodeStatus
          (toDeployStatus oldStat) (toDeployStatus .Deployed) :=
  ⟨(statusTracker_counter_sums.1
      { dryRun := false, goalStatus := .Deployed,
        nodes := [{ nid := 0, element := none, activeAction := false }], deployOpID := 0 } 9
      [{ n := { nid := 0, element := none, activeAction := false }, statExt := .Deployed,
         errMsg := none, description := none }]).1,
   statusTracker_counter_sums.2
     (createStatusTracker
       { dryRun := false, goalStatus := .Deployed,
         nodes := [{ nid := 0, element := none, activeAction := false }], deployOpID := 0 } 9)
     { nid := 0, element := none, activeAction := false } .Deployed none none
     (applySets
       (createStatusTracker
         { dryRun := false, goalStatus := .Deployed,
           nodes := [{ nid := 0, element := none, activeAction := false }], deployOpID := 0 } 9)
       [{ n := { nid := 0, element := none, activeAction := false }, statExt := .Deployed,
          errMsg := none, description := none }]) rfl⟩


/-! ### Lemmas: dry run and history commit -/

theorem writeStatus_stepNone (t : StatusTrackerImpl) (n : EPNode) (e : Option String)
    (s : DeployStatusExt) (h : t.stepID = none) : writeStatus t n e s = t := by
  unfold writeStatus
  split
  · next el sid helem hstep =>
    rw [h] at hstep
    exact Option.noConfusion hstep
  · rfl

theorem getTask_eq_of_taskMap (x y : StatusTrackerImpl) (n : EPNode)
    (h : x.taskMap = y.taskMap) : getTask x n = getTask y n := by
  unfold getTask
  rw [h]

theorem getTask_some_elim (t : StatusTrackerImpl) (n : EPNode) (task : TaskObs)
    (h : getTask t n = some task) :
    shouldTrackStatus n = true ∧ t.taskMap.lookup n = some task := by
  unfold getTask at h
  split at h
  · next hcond => exact ⟨hcond, h⟩
  · exact Option.noConfusion h

theorem lookup_updAssoc {α : Type} (m : List (EPNode × α)) (k : EPNode) (v x : α)
    (h : m.lookup k = some x) : (updAssoc m k v).lookup k = some v := by
  induction m with
  | nil => simp [List.lookup] at h
  | cons p ps ih =>
    show List.lookup k ((if p.1 = k then (k, v) else p) :: updAssoc ps k v) = some v
    by_cases he : p.1 = k
    · rw [if_pos he]
      simp [List.lookup]
    · rw [if_neg he]
      have hbe : (k == p.1) = false := by
        simp
        exact fun hq => he hq.symm
      simp only [List.lookup, hbe] at h
      simp only [List.lookup, hbe]
      exact ih h

theorem trackerSet_dry (t : StatusTrackerImpl) (n : EPNode) (s : DeployStatusExt)
    (e d : Option String) (b : Bool) (t2 : StatusTrackerImpl)
    (h : trackerSet t n s e d = some (b, t2)) (hstep : t.stepID = none) :
    t2.writes = t.writes ∧ t2.stepID = none := by
  cases hget : trackerGet t n with
  | none =>
    simp only [trackerSet, hget] at h
    exact Option.noConfusion h
  | some oldStat =>
    simp only [trackerSet, hget] at h
    split at h
    · have hp := Option.some.inj h
      have ht := congrArg Prod.snd hp
      simp only at ht
      rw [← ht]
      exact ⟨rfl, hstep⟩
    · have hp := Option.some.inj h
      have ht := congrArg Prod.snd hp
      simp only at ht
      rw [← ht]
      have hcf := updateCount_fields { t with statMap := updAssoc t.statMap n s } n
        (toDeployStatus oldStat) (toDeployStatus s)
      have huf := updateTask_fields
        (updateCount { t with statMap := updAssoc t.statMap n s } n
          (toDeployStatus oldStat) (toDeployStatus s)) n oldStat (toDeployStatus s) e d
      have hsn : (updateTask
          (updateCount { t with statMap := updAssoc t.statMap n s } n
            (toDeployStatus oldStat) (toDeployStatus s)) n oldStat (toDeployStatus s) e d).stepID
          = none := by
        rw [huf.2.2.2.2.1]
        rw [hcf.2.2.2.2.2.1]
        exact hstep
      rw [writeStatus_stepNone _ _ _ _ hsn]
      constructor
      · rw [huf.2.2.2.2.2.1]
        rw [hcf.2.2.2.2.2.2.1]
      · exact hsn

theorem applySets_dry (calls : List SetCall) : ∀ (t : StatusTrackerImpl),
    t.stepID = none →
    (applySets t calls).writes = t.writes ∧ (applySets t calls).stepID = none := by
  induction calls with
  | nil => exact fun t h => ⟨rfl, h⟩
  | cons c cs ih =>
    intro t hstep
    cases hset : trackerSet t c.n c.statExt c.errMsg c.description with
    | none =>
      simp only [applySets, hset]
      exact ih t hstep
    | some bt =>
      obtain ⟨b, t2⟩ := bt
      simp only [applySets, hset]
      have hd := trackerSet_dry t c.n c.statExt c.errMsg c.description b t2 hset hstep
      have hi := ih t2 hd.2
      exact ⟨hi.1.trans hd.1, hi.2⟩

theorem trackerComplete_stepNone (t : StatusTrackerImpl) (sc : Bool) (st : DeployOpStatus)
    (t2 : StatusTrackerImpl) (hs : t.stepID = none)
    (h : trackerComplete t sc = .ok (st, t2)) : t2 = t := by
  rw [trackerComplete_eq] at h
  split at h
  · exact Except.noConfusion h
  · have hp := Except.ok.inj h
    have h2 := congrArg Prod.snd hp
    simp only at h2
    rw [hs] at h2
    exact h2.symm

theorem updateTask_dry_skip (t : StatusTrackerImpl) (n : EPNode) (oldStat : DeployStatusExt)
    (newStat : DeployStatus) (task : TaskObs)
    (hd : t.dryRun = true) (hg : isGoalStatus newStat = true)
    (htask : getTask t n = some task)
    (hstate : task.state = .Created ∨ task.state = .Started) :
    updateTask t n oldStat newStat none none =
      { t with taskMap := updAssoc t.taskMap n { task with state := .Skipped } } := by
  rcases hstate with hs | hs
  · simp [updateTask, htask, hd, hg, hs]
  · simp [updateTask, htask, hd, hg, hs]

theorem commitEntry_ok_lastCommit (cs : CommitState) (entry : CommitData) (cs2 : CommitState)
    (h : commitEntry cs entry = .ok cs2) :
    (cs2 = cs ∧ cs.lastCommit = some .preAct ∧ entry.status = .preAct) ∨
    cs2.lastCommit = some entry.status := by
  unfold commitEntry commitEntry.commitWrite at h
  split at h
  · next hcond =>
    exact Or.inl ⟨(Except.ok.inj h).symm, hcond.1, hcond.2⟩
  · split at h
    · split at h
      · exact Except.noConfusion h
      · right
        rw [← Except.ok.inj h]
    · right
      rw [← Except.ok.inj h]

theorem commitEntry_dry (cs : CommitState) (e : CommitData) (cs2 : CommitState)
    (hd : cs.dryRun = true) (h : commitEntry cs e = .ok cs2) :
    cs2.committed = cs.committed := by
  unfold commitEntry commitEntry.commitWrite at h
  split at h
  · rw [← Except.ok.inj h]
  · split at h
    · split at h
      · exact Except.noConfusion h
      · rw [← Except.ok.inj h]
    · rw [← Except.ok.inj h]

theorem actModel_dry_executed (acts : List ModelAction) : ∀ (t : StatusTrackerImpl),
    (actModel true acts t).1 = [] := by
  induction acts with
  | nil => exact fun _ => rfl
  | cons a rest ih =>
    intro t
    exact ih _

/-! ### Claim theorem: commit ordering (C5) -/

/-- C5: through the commit closure, committing the same terminal (complete)
phase twice in a row raises the fatal InternalError, while a second
consecutive preAct commit is a no-op: it writes nothing, raises nothing and
leaves the commit state exactly as it was. -/
theorem history_commit_ordering :
    (∀ (cs : CommitState) (e1 e2 : CommitData) (cs1 : CommitState),
      isStatusComplete e1.status = true →
      commitEntry cs e1 = .ok cs1 →
      e2.status = e1.status →
      commitEntry cs1 e2 =
        .error (.internalError "Attempt to commit a repeated final HistoryStatus")) ∧
    (∀ (cs : CommitState) (e : CommitData) (cs1 : CommitState),
      e.status = .preAct →
      commitEntry cs e = .ok cs1 →
      commitEntry cs1 e = .ok cs1) := by
  constructor
  · intro cs e1 e2 cs1 hterm h1 hstat
    have hlast : cs1.lastCommit = some e1.status := by
      rcases commitEntry_ok_lastCommit cs e1 cs1 h1 with ⟨_, _, hpre⟩ | hl
      · rw [hpre] at hterm
        exact absurd hterm (by decide)
      · exact hl
    have hnp : ¬(cs1.lastCommit = some .preAct ∧ e2.status = .preAct) := by
      rintro ⟨_, hp2⟩
      rw [hstat] at hp2
      rw [hp2] at hterm
      exact absurd hterm (by decide)
    unfold commitEntry
    rw [if_neg hnp]
    simp only [hlast]
    rw [if_pos hterm]
  · intro cs e cs1 hpre h1
    have hl : cs1.lastCommit = some .preAct := by
      rcases commitEntry_ok_lastCommit cs e cs1 h1 with ⟨heq, hlc, _⟩ | hl
      · rw [heq]
        exact hlc
      · rw [hl, hpre]
    unfold commitEntry
    rw [if_pos ⟨hl, hpre⟩]

/-- Witness for C5: committing success twice in a row from a fresh state
throws; committing preAct twice in a row returns the state unchanged. -/
theorem history_commit_ordering_witness :
    commitEntry
        { dryRun := false
          lastCommit := some HistoryStatus.success
          fileName := "f"
          projectRoot := "p"
          stackName := "s"
          stateJson := "j"
          committed :=
            [{ data :=
                { status := HistoryStatus.success
                  dataDir := "d"
                  dependenciesJson := "q"
                  domXml := "x"
                  observationsJson := "o" }
               fileName := "f"
               projectRoot := "p"
               stackName := "s"
               stateJson := "j" }] }
        { status := HistoryStatus.success
          dataDir := "d"
          dependenciesJson := "q"
          domXml := "x"
          observationsJson := "o" } =
      .error (.internalError "Attempt to commit a repeated final HistoryStatus") ∧
    commitEntry
        { dryRun := false
          lastCommit := some HistoryStatus.preAct
          fileName := "f"
          projectRoot := "p"
          stackName := "s"
          stateJson := "j"
          committed :=
            [{ data :=
                { status := HistoryStatus.preAct
                  dataDir := "d"
                  dependenciesJson := "q"
                  domXml := "x"
                  observationsJson := "o" }
               fileName := "f"
               projectRoot := "p"
               stackName := "s"
               stateJson := "j" }] }
        { status := HistoryStatus.preAct
          dataDir := "d"
          dependenciesJson := "q"
          domXml := "x"
          observationsJson := "o" } =
      .ok
        { dryRun := false
          lastCommit := some HistoryStatus.preAct
          fileName := "f"
          projectRoot := "p"
          stackName := "s"
          stateJson := "j"
          committed :=
            [{ data :=
                { status := HistoryStatus.preAct
                  dataDir := "d"
                  dependenciesJson := "q"
                  domXml := "x"
                  observationsJson := "o" }
               fileName := "f"
               projectRoot := "p"
               stackName := "s"
               stateJson := "j" }] } :=
  ⟨history_commit_ordering.1
      { dryRun := false
        lastCommit := none
        fileName := "f"
        projectRoot := "p"
        stackName := "s"
        stateJson := "j"
        committed := [] }
      { status := HistoryStatus.success
        dataDir := "d"
        dependenciesJson := "q"
        domXml := "x"
        observationsJson := "o" }
      { status := HistoryStatus.success
        dataDir := "d"
        dependenciesJson := "q"
        domXml := "x"
        observationsJson := "o" }
      _ (by decide) rfl rfl,
   history_commit_ordering.2
      { dryRun := false
        lastCommit := none
        fileName := "f"
        projectRoot := "p"
        stackName := "s"
        stateJson := "j"
        committed := [] }
      { status := HistoryStatus.preAct
        dataDir := "d"
        dependenciesJson := "q"
        domXml := "x"
        observationsJson := "o" }
      _ rfl rfl⟩

/-! ### Claim theorem: dry run purity (C8) -/

/-- C8: in dry-run mode no persistence happens and no executor runs: the
tracker allocates no step id and records no initial status write; with no
step id, no sequence of set calls and no complete call adds a persistence
write; an eligible created-or-started task of a node reaching a goal status
is marked skipped by the dry-run branch of updateTask; the modelled dry-run
act phase invokes no executor; and a dry-run history commit persists no
entry. -/
theorem dry_run_purity :
    (∀ (opts : StatusTrackerOptions) (sid : Nat),
      opts.dryRun = true →
      (createStatusTracker opts sid).stepID = none ∧
      (createStatusTracker opts sid).writes = [] ∧
      (createStatusTracker opts sid).dryRun = true) ∧
    (∀ (t : StatusTrackerImpl) (calls : List SetCall),
      t.stepID = none →
      (applySets t calls).writes = t.writes ∧ (applySets t calls).stepID = none) ∧
    (∀ (t : StatusTrackerImpl) (sc : Bool) (st : DeployOpStatus) (t2 : StatusTrackerImpl),
      t.stepID = none → trackerComplete t sc = .ok (st, t2) → t2.writes = t.writes) ∧
    (∀ (t : StatusTrackerImpl) (n : EPNode) (statExt oldStat : DeployStatusExt)
        (task : TaskObs),
      t.dryRun = true →
      trackerGet t n = some oldStat →
      ¬(statExt = oldStat ∨ isFinalStatus oldStat = true) →
      isGoalStatus (toDeployStatus statExt) = true →
      getTask t n = some task →
      (task.state = .Created ∨ task.state = .Started) →
      ∃ t2, trackerSet t n statExt none none = some (true, t2) ∧
        getTask t2 n = some { task with state := .Skipped }) ∧
    (∀ (acts : List ModelAction) (t : StatusTrackerImpl), (actModel true acts t).1 = []) ∧
    (∀ (cs : CommitState) (e : CommitData) (cs2 : CommitState),
      cs.dryRun = true → commitEntry cs e = .ok cs2 → cs2.committed = cs.committed) := by
  refine ⟨?_, ?_, ?_, ?_, actModel_dry_executed, commitEntry_dry⟩
  · intro opts sid hd
    have hmk : (mkTracker opts).dryRun = true := hd
    unfold createStatusTracker initDeploymentStatus
    rw [if_pos hmk]
    exact ⟨rfl, rfl, hmk⟩
  · intro t calls hstep
    exact applySets_dry calls t hstep
  · intro t sc st t2 hstep hcomp
    rw [trackerComplete_stepNone t sc st t2 hstep hcomp]
  · intro t n statExt oldStat task hd hget hcond hg htask
    intro hstate
    refine ⟨writeStatus
        (updateTask
          (updateCount { t with statMap := updAssoc t.statMap n statExt } n
            (toDeployStatus oldStat) (toDeployStatus statExt)) n oldStat
          (toDeployStatus statExt) none none) n none statExt, ?_, ?_⟩
    · simp only [trackerSet, hget]
      rw [if_neg hcond]
    · have hT1 : ({ t with statMap := updAssoc t.statMap n statExt }
          : StatusTrackerImpl).taskMap = t.taskMap := rfl
      have hcf := updateCount_fields { t with statMap := updAssoc t.statMap n statExt } n
        (toDeployStatus oldStat) (toDeployStatus statExt)
      have hTct : (updateCount { t with statMap := updAssoc t.statMap n statExt } n
          (toDeployStatus oldStat) (toDeployStatus statExt)).taskMap = t.taskMap := by
        rw [hcf.2.2.2.2.1]
      have hTcd : (updateCount { t with statMap := updAssoc t.statMap n statExt } n
          (toDeployStatus oldStat) (toDeployStatus statExt)).dryRun = true := by
        rw [hcf.2.2.2.2.2.2.2.1]
        exact hd
      have hgt2 : getTask (updateCount { t with statMap := updAssoc t.statMap n statExt } n
          (toDeployStatus oldStat) (toDeployStatus statExt)) n = some task := by
        rw [getTask_eq_of_taskMap _ t n hTct]
        exact htask
      have hupd := updateTask_dry_skip
        (updateCount { t with statMap := updAssoc t.statMap n statExt } n
          (toDeployStatus oldStat) (toDeployStatus statExt)) n oldStat
        (toDeployStatus statExt) task hTcd hg hgt2 hstate
      have hwf := writeStatus_fields
        (updateTask
          (updateCount { t with statMap := updAssoc t.statMap n statExt } n
            (toDeployStatus oldStat) (toDeployStatus statExt)) n oldStat
          (toDeployStatus statExt) none none) n none statExt
      rw [getTask_eq_of_taskMap _ _ n hwf.2.2.2.2.1, hupd]
      obtain ⟨hshould, hlook⟩ := getTask_some_elim t n task htask
      unfold getTask
      rw [if_pos hshould]
      show (updAssoc (updateCount { t with statMap := updAssoc t.statMap n statExt } n
          (toDeployStatus oldStat) (toDeployStatus statExt)).taskMap n
          { task with state := .Skipped }).lookup n = some { task with state := .Skipped }
      rw [hTct]
      exact lookup_updAssoc t.taskMap n { task with state := .Skipped } task hlook

/-- Witness for C8: a dry tracker over one primitive-element node allocates
no step id and writes nothing, its set and complete calls write nothing, the
eligible task of the node driven to Deployed is skipped, no executor runs
and a dry commit persists nothing. -/
theorem dry_run_purity_witness :
    ((createStatusTracker
        { dryRun := true, goalStatus := .Deployed,
          nodes := [{ nid := 0, element := some { eid := 5, isFinalDom := true, built := false, deployedWhenIsTrivial := false }, activeAction := false }],
          deployOpID := 0 } 9).stepID = none ∧
      (createStatusTracker
        { dryRun := true, goalStatus := .Deployed,
          nodes := [{ nid := 0, element := some { eid := 5, isFinalDom := true, built := false, deployedWhenIsTrivial := false }, activeAction := false }],
          deployOpID := 0 } 9).writes = [] ∧
      (createStatusTracker
        { dryRun := true, goalStatus := .Deployed,
          nodes := [{ nid := 0, element := some { eid := 5, isFinalDom := true, built := false, deployedWhenIsTrivial := false }, activeAction := false }],
          deployOpID := 0 } 9).dryRun = true) ∧
    (∃ t2, trackerSet
        (createStatusTracker
          { dryRun := true, goalStatus := .Deployed,
            nodes := [{ nid := 0, element := some { eid := 5, isFinalDom := true, built := false, deployedWhenIsTrivial := false }, activeAction := false }],
            deployOpID := 0 } 9)
        { nid := 0, element := some { eid := 5, isFinalDom := true, built := false, deployedWhenIsTrivial := false }, activeAction := false } .Deployed none none = some (true, t2) ∧
      getTask t2
        { nid := 0, element := some { eid := 5, isFinalDom := true, built := false, deployedWhenIsTrivial := false }, activeAction := false } = some { state := TaskState.Skipped, description := none }) ∧
    (actModel true
      [{ node := { nid := 0, element := some { eid := 5, isFinalDom := true, built := false, deployedWhenIsTrivial := false }, activeAction := false }, doneStatus := .Deployed, executorId := 77 }]
      (createStatusTracker
        { dryRun := true, goalStatus := .Deployed,
          nodes := [{ nid := 0, element := some { eid := 5, isFinalDom := true, built := false, deployedWhenIsTrivial := false }, activeAction := false }],
          deployOpID := 0 } 9)).1 = [] ∧
    ((applySets
        (createStatusTracker
          { dryRun := true, goalStatus := .Deployed,
            nodes := [{ nid := 0, element := some { eid := 5, isFinalDom := true, built := false, deployedWhenIsTrivial := false }, activeAction := false }],
            deployOpID := 0 } 9) []).writes =
      (createStatusTracker
        { dryRun := true, goalStatus := .Deployed,
          nodes := [{ nid := 0, element := some { eid := 5, isFinalDom := true, built := false, deployedWhenIsTrivial := false }, activeAction := false }],
          deployOpID := 0 } 9).writes ∧
      (applySets
        (createStatusTracker
          { dryRun := true, goalStatus := .Deployed,
            nodes := [{ nid := 0, element := some { eid := 5, isFinalDom := true, built := false, deployedWhenIsTrivial := false }, activeAction := false }],
            deployOpID := 0 } 9) []).stepID = none) ∧
    (commitEntry
        { dryRun := true, lastCommit := none, fileName := "f", projectRoot := "p", stackName := "s", stateJson := "j", committed := [] }
        { status := HistoryStatus.preAct, dataDir := "d", dependenciesJson := "q", domXml := "x", observationsJson := "o" } =
      .ok { dryRun := true, lastCommit := some HistoryStatus.preAct, fileName := "f", projectRoot := "p", stackName := "s", stateJson := "j", committed := [] } →
      ({ dryRun := true, lastCommit := some HistoryStatus.preAct, fileName := "f", projectRoot := "p", stackName := "s", stateJson := "j", committed := [] } : CommitState).committed =
        ({ dryRun := true, lastCommit := none, fileName := "f", projectRoot := "p", stackName := "s", stateJson := "j", committed := [] } : CommitState).committed) :=
  ⟨dry_run_purity.1
      { dryRun := true, goalStatus := .Deployed,
        nodes := [{ nid := 0, element := some { eid := 5, isFinalDom := true, built := false, deployedWhenIsTrivial := false }, activeAction := false }],
        deployOpID := 0 } 9 rfl,
   dry_run_purity.2.2.2.1 _ _ .Deployed .Waiting { state := .Created, description := none }
     rfl rfl (by decide) (by decide) rfl (Or.inl rfl),
   dry_run_purity.2.2.2.2.1 _ _,
   dry_run_purity.2.1
     (createStatusTracker
       { dryRun := true, goalStatus := .Deployed,
         nodes := [{ nid := 0, element := some { eid := 5, isFinalDom := true, built := false, deployedWhenIsTrivial := false }, activeAction := false }],
         deployOpID := 0 } 9) [] rfl,
   fun hc => dry_run_purity.2.2.2.2.2 _ _ _ rfl hc⟩


end Adapt
